import Mathlib

/-!
# Volume control extension: content script and popup

A shallow embedding of `src/cs.js` (the content script that owns the page's
audio graph) and of the domain normalisation of `src/popup.js`, followed by
the properties proved about them.

Conventions of the embedding.

* JavaScript strings are Lean `String`s, processed through their list of
  characters.  The characters the code looks for (`/`, `:`, the letters of the
  schemes and of `www.`) are ASCII.
* `tc.vars` is the record `Vars`; the two Web Audio objects it refers to are
  records stored inside it, so an assignment to one of their properties is a
  record update.
* A browser call that can throw takes its outcome from an explicit outcome
  argument: the calls the source wraps in `try`, and also the `AudioContext`
  constructor and `createGain`, which the source calls before the `try` block
  of `connectOutput`; a throw there leaves `connectOutput` through the
  `Completion.throw` result.
* Double arithmetic is not evaluated: the result of `Math.pow(10, n / 20)` is
  kept as that expression of `n`.
* The builtins `toLowerCase`, `Number` on strings and objects, and `parseInt`
  are not defined here: `toLowerCase` is an argument of the functions that
  call it, and a value carries the result of its conversion.
* `log` only writes to the console and is left out.
-/

namespace VolumeControl

/-! ## JavaScript values -/

/-- A JavaScript number: `NaN`, an infinity (`negative` tells which), or a
finite value.  The finite doubles are among the rationals; `-0` is not kept
apart from `0`. -/
inductive JSNum where
  | nan
  | inf (negative : Bool)
  | fin (q : ℚ)
  deriving DecidableEq, Repr

/-- The values a message field or a stored setting may hold.  A string and an
object (or array) come with the number that `Number(x)` converts them to: the
conversion is the language's, not the source's, and the code looks at such a
value through it and through its truthiness only. -/
inductive JSVal where
  | undefined
  | null
  | bool (b : Bool)
  | num (n : JSNum)
  | str (s : String) (number : JSNum)
  | obj (number : JSNum)
  deriving DecidableEq, Repr

/-- The `ToBoolean` coercion of a number: `NaN` and zero are falsy. -/
def JSNum.truthy : JSNum → Bool
  | .nan => false
  | .inf _ => true
  | .fin q => decide (q ≠ 0)

/-- The `ToBoolean` coercion used by `if (x)`. -/
def JSVal.truthy : JSVal → Bool
  | .undefined => false
  | .null => false
  | .bool b => b
  | .num n => n.truthy
  | .str s _ => !s.data.isEmpty
  | .obj _ => true

/-- The builtin `Number(x)`. -/
def Number : JSVal → JSNum
  | .undefined => .nan
  | .null => .fin 0
  | .bool true => .fin 1
  | .bool false => .fin 0
  | .num n => n
  | .str _ n => n
  | .obj n => n

/-- The builtin `Number.isNaN`. -/
def JSNum.isNaN : JSNum → Bool
  | .nan => true
  | .inf _ => false
  | .fin _ => false

/-- A value `getGainValue` returns, kept as the expression that produces it:
`unity` is the literal `1.0`, and `ofDecibels n` is the double that
`Math.pow(10, n / 20)` evaluates to for the number `n`: the double
approximation of ten to the power `n / 20`, which is `Infinity` above the
range of the doubles and `0` below it.  Two equal expressions are the same
double; two different expressions may be the same double too. -/
inductive Gain where
  | unity
  | ofDecibels (n : JSNum)
  deriving DecidableEq, Repr

/-- The real number that `Math.pow(10, d / 20)` approximates for a finite
`d`. -/
noncomputable def exactGain (d : ℚ) : ℝ := (10 : ℝ) ^ ((d : ℝ) / 20)

/-- Source: `getGainValue` (cs.js 50-54). -/
def getGainValue (dB : JSVal) : Gain :=
  let n := Number dB
  if n.isNaN then Gain.unity
  else Gain.ofDecibels n

/-! ## Strings -/

/-- Remove the prefix `p` from the front of `s`, if it is there. -/
def dropPrefix? : List Char → List Char → Option (List Char)
  | [], s => some s
  | _ :: _, [] => none
  | p :: ps, c :: cs => if p = c then dropPrefix? ps cs else none

/-- The builtin `String.prototype.startsWith`. -/
def startsWith (s p : String) : Bool := (dropPrefix? p.data s.data).isSome

/-- Search for `d` at every position of `s`. -/
def includesChars : List Char → List Char → Bool
  | [], d => (dropPrefix? d []).isSome
  | c :: cs, d => (dropPrefix? d (c :: cs)).isSome || includesChars cs d

/-- The builtin `String.prototype.includes`. -/
def includes (s d : String) : Bool := includesChars s.data d.data

/-- What the builtin `toLowerCase` gives on a string whose letters are all
ASCII.  It serves to evaluate the functions below on sample URLs; the
functions themselves take the builtin as an argument. -/
def asciiToLowerCase (s : String) : String := String.mk (s.data.map Char.toLower)

/-- The first piece of `s.split(sep)`: everything before the first `sep`. -/
def splitHead (sep : Char) (s : List Char) : List Char := s.takeWhile (fun c => c != sep)

/-- The replacement `url.replace(/^(https?|ftp):\/\/(www\.)?/, '')`: the
scheme alternatives in the order the expression tries them, then the greedy
optional `www.`; a string the expression does not match is returned as is. -/
def stripSchemeAndWww (url : List Char) : List Char :=
  let afterScheme : Option (List Char) :=
    match dropPrefix? "https://".data url with
    | some r => some r
    | none =>
      match dropPrefix? "http://".data url with
      | some r => some r
      | none => dropPrefix? "ftp://".data url
  match afterScheme with
  | none => url
  | some r =>
    match dropPrefix? "www.".data r with
    | some r2 => r2
    | none => r

namespace Cs

/-- Source: `extractRootDomain` (cs.js 158-163).  `toLowerCase` is the
builtin; `none` is an absent URL (`undefined` or `null`). -/
def extractRootDomain (toLowerCase : String → String) (url : Option String) : String :=
  match url with
  | none => ""
  | some u =>
    if u.data.isEmpty then ""
    else
      let domain := stripSchemeAndWww u.data
      let domain := splitHead ':' (splitHead '/' domain)
      toLowerCase (String.mk domain)

end Cs

namespace Popup

/-- Source: `extractRootDomain` (popup.js 36-45).  `toLowerCase` is the
builtin; the result `none` is `null`. -/
def extractRootDomain (toLowerCase : String → String) (url : Option String) :
    Option String :=
  match url with
  | none => none
  | some u =>
    if u.data.isEmpty then none
    else if startsWith u "file:" then some "Local File"
    else if startsWith u "chrome" || startsWith u "edge" || startsWith u "about"
        || startsWith u "extension" then none
    else
      let domain := stripSchemeAndWww u.data
      let domain := splitHead '/' domain
      let domain := splitHead ':' domain
      some (toLowerCase (String.mk domain))

end Popup

/-! ## The page state -/

/-- The page's `AudioContext`. -/
structure AudioContext where
  id : Nat
  state : String
  deriving DecidableEq, Repr

/-- The page's gain node: `value` is `gain.value`, `scheduled` the value
pending on the automation timeline of `gain`. -/
structure GainNode where
  id : Nat
  value : Gain
  scheduled : Option Gain
  channelCountMode : String
  channelCount : Nat
  channelInterpretation : String
  deriving DecidableEq, Repr

/-- Source: `tc.vars` (cs.js 8-14). -/
structure Vars where
  dB : JSVal
  mono : JSVal
  audioCtx : Option AudioContext
  gainNode : Option GainNode
  isBlocked : Bool
  deriving DecidableEq, Repr

/-- A media element: its `data-vc-hooked` marker, whether it exposes
`wrappedJSObject`, and its `style.border`. -/
structure Element where
  tagName : String
  vcHooked : Option String
  wrappedJSObject : Bool
  border : String
  deriving DecidableEq, Repr

/-- A `connect` call that returned. -/
inductive Edge where
  | sourceToGain (element : Nat) (gain : Nat)
  | gainToDestination (gain : Nat) (ctx : Nat)
  deriving DecidableEq, Repr

/-- The page as the content script sees it.  `contexts` and `gainNodes` count
the objects constructed so far, `sources` lists the element behind every
media-element source created, `edges` the connections made. -/
structure Page where
  vars : Vars
  debugMode : Bool
  elements : List Element
  vcInit : Bool
  observing : Bool
  contexts : Nat
  gainNodes : Nat
  sources : List Nat
  edges : List Edge
  deriving DecidableEq, Repr

/-- How a function ends: by returning or by throwing to its caller. -/
inductive Completion where
  | normal
  | throw
  deriving DecidableEq, Repr

/-- Outcome of the two scheduling calls in `applyState`. -/
inductive SchedOutcome where
  | ok
  | cancelThrows
  | setThrows
  deriving DecidableEq, Repr

/-- Outcomes of the browser calls made by one `connectOutput`: `ctor` is the
state of the context the constructor returns (`none`: it throws), the booleans
say whether the call returns (`createGain` for `audioCtx.createGain()`). -/
structure HookOutcome where
  ctor : Option String
  createGain : Bool
  schedCreate : SchedOutcome
  unwrapped : Bool
  direct : Bool
  sourceConnect : Bool
  gainConnect : Bool
  schedHook : SchedOutcome
  deriving DecidableEq, Repr

/-! ## The audio graph -/

/-- The scheduling block of `applyState` (cs.js 67-72): the two calls, either
of which may throw into the `catch`. -/
def scheduleGain (sched : SchedOutcome) (targetGain : Gain) (gainNode : GainNode) : GainNode :=
  match sched with
  | .ok => { gainNode with scheduled := some targetGain }
  | .cancelThrows => gainNode
  | .setThrows => { gainNode with scheduled := none }

/-- The channel block of `applyState` (cs.js 75-81). -/
def setChannels (mono : JSVal) (gainNode : GainNode) : GainNode :=
  if mono.truthy then
    { gainNode with channelCountMode := "explicit", channelCount := 1 }
  else
    { gainNode with channelCountMode := "max", channelCount := 2 }

/-- Source: `applyState` (cs.js 56-82). -/
def applyState (sched : SchedOutcome) (v : Vars) : Vars :=
  match v.gainNode, v.audioCtx with
  | some gainNode, some audioCtx =>
    let targetGain := getGainValue v.dB
    let gainNode := { gainNode with value := targetGain }
    let gainNode :=
      if audioCtx.state = "running" then scheduleGain sched targetGain gainNode
      else gainNode
    let gainNode := setChannels v.mono gainNode
    { v with gainNode := some gainNode }
  | _, _ => v

/-- The node `createGain()` returns, with the defaults of a gain node. -/
def freshGainNode (id : Nat) : GainNode :=
  { id := id, value := Gain.unity, scheduled := none, channelCountMode := "max",
    channelCount := 2, channelInterpretation := "speakers" }

/-- Source: `createGainNode` (cs.js 84-92).  `createGain` tells whether the
call `audioCtx.createGain()` returns; when it throws, so does the function. -/
def createGainNode (createGain : Bool) (sched : SchedOutcome) (p : Page) : Page × Completion :=
  match p.vars.audioCtx with
  | none => (p, .normal)
  | some _ =>
    match p.vars.gainNode with
    | none =>
      if createGain then
        let p :=
          { p with
            vars := { p.vars with
              gainNode := some { freshGainNode p.gainNodes with
                channelInterpretation := "speakers" } }
            gainNodes := p.gainNodes + 1 }
        ({ p with vars := applyState sched p.vars }, .normal)
      else (p, .throw)
    | some _ => ({ p with vars := applyState sched p.vars }, .normal)

/-- The `catch` block of `connectOutput` (cs.js 130-132). -/
def hookFailed (p : Page) (i : Nat) (element : Element) : Page :=
  if p.debugMode then
    { p with elements := p.elements.set i { element with border := "5px solid red" } }
  else p

/-- The `try` block of `connectOutput` (cs.js 106-129), the `catch` block
included. -/
def hookBody (o : HookOutcome) (p : Page) (i : Nat) (element : Element) : Page :=
  match p.vars.audioCtx with
  | none => hookFailed p i element
  | some audioCtx =>
    let viaUnwrapped := element.wrappedJSObject && o.unwrapped
    if !viaUnwrapped && !o.direct then hookFailed p i element
    else
      let p := { p with sources := p.sources ++ [i] }
      match p.vars.gainNode with
      | none => hookFailed p i element
      | some gainNode =>
        if !o.sourceConnect then hookFailed p i element
        else
          let p := { p with edges := p.edges ++ [Edge.sourceToGain i gainNode.id] }
          if !o.gainConnect then hookFailed p i element
          else
            let p := { p with edges := p.edges ++ [Edge.gainToDestination gainNode.id audioCtx.id] }
            let element := { element with vcHooked := some "true" }
            let p := { p with vars := applyState o.schedHook p.vars }
            let element :=
              if p.debugMode then { element with border := "2px solid #00ff00" }
              else { element with border := "" }
            { p with elements := p.elements.set i element }

/-- The context block of `connectOutput` (cs.js 97-102); `none` is the
constructor throwing. -/
def ensureContext (o : HookOutcome) (p : Page) : Option Page :=
  match p.vars.audioCtx with
  | some _ => some p
  | none =>
    match o.ctor with
    | none => none
    | some st =>
      some { p with
        vars := { p.vars with audioCtx := some { id := p.contexts, state := st } }
        contexts := p.contexts + 1 }

/-- The gain-node line of `connectOutput` (cs.js 104). -/
def ensureGainNode (o : HookOutcome) (p : Page) : Page × Completion :=
  if p.vars.gainNode.isNone then createGainNode o.createGain o.schedCreate p
  else (p, .normal)

/-- Source: `connectOutput` (cs.js 94-133), called on the `i`-th media element
of the page.  A call on an index that names no element does nothing.  The
constructor and `createGainNode` are called before the `try` block, so a throw
of either leaves the function, with what was stored until then. -/
def connectOutput (o : HookOutcome) (p : Page) (i : Nat) : Page × Completion :=
  match p.elements[i]? with
  | none => (p, .normal)
  | some element =>
    if element.vcHooked = some "true" then (p, .normal)
    else
      match ensureContext o p with
      | none => (p, .throw)
      | some p =>
        match ensureGainNode o p with
        | (p, .throw) => (p, .throw)
        | (p, .normal) => (hookBody o p i element, .normal)

/-! ## Messages -/

/-- A message from the popup: `msg.command`, `msg.dB`, `msg.mono`. -/
structure Message where
  command : String
  dB : JSVal
  mono : JSVal
  deriving DecidableEq, Repr

/-- The argument of `sendResponse`: `{status: s}`, `{}` or `{response: v}`. -/
inductive Response where
  | status (s : String)
  | empty
  | response (v : JSVal)
  deriving DecidableEq, Repr

/-- What handling one message did: the new `tc.vars`, the response sent (if
any) and the value the listener returned. -/
structure Handled where
  vars : Vars
  sent : Option Response
  returned : JSVal
  deriving DecidableEq, Repr

/-- Source: the `onMessage` listener (cs.js 23-47). -/
def onMessage (sched : SchedOutcome) (v : Vars) (msg : Message) : Handled :=
  if v.isBlocked then { vars := v, sent := none, returned := .undefined }
  else if msg.command = "checkExclusion" then
    { vars := v, sent := some (.status "active"), returned := .bool true }
  else if msg.command = "setVolume" then
    let v := { v with dB := msg.dB }
    let v := applyState sched v
    { vars := v, sent := some .empty, returned := .bool true }
  else if msg.command = "getVolume" then
    { vars := v, sent := some (.response v.dB), returned := .bool true }
  else if msg.command = "setMono" then
    let v := { v with mono := msg.mono }
    let v := applyState sched v
    { vars := v, sent := some .empty, returned := .bool true }
  else if msg.command = "getMono" then
    { vars := v, sent := some (.response v.mono), returned := .bool true }
  else { vars := v, sent := none, returned := .bool true }

/-! ## Start-up -/

/-- One entry of `siteSettings`, as `start` looks at it.  `volume` is `none`
when `s.volume` is `undefined`, and otherwise holds the number that
`parseInt(s.volume, 10)` evaluates to; `mono` is `s.mono`. -/
structure SiteSetting where
  volume : Option JSNum
  mono : JSVal
  deriving DecidableEq, Repr

/-- The object the storage read hands to the callback of `start`.
`whitelistMode` is the truthiness of the stored value; `debugMode` is `none`
when the stored value is `undefined` and otherwise its truthiness. -/
structure StorageData where
  fqdns : List String
  whitelist : List String
  whitelistMode : Bool
  siteSettings : List (String × SiteSetting)
  debugMode : Option Bool
  deriving DecidableEq, Repr

/-- The loop of `init` over the media elements (cs.js 138); it stops at the
first call that throws. -/
def initLoop (hooks : Nat → HookOutcome) : List Nat → Page → Page × Completion
  | [], p => (p, .normal)
  | i :: rest, p =>
    match connectOutput (hooks i) p i with
    | (p, .normal) => initLoop hooks rest p
    | (p, .throw) => (p, .throw)

/-- Source: `init` (cs.js 135-156). -/
def init (hooks : Nat → HookOutcome) (p : Page) : Page × Completion :=
  if p.vcInit then (p, .normal)
  else
    match initLoop hooks (List.range p.elements.length) p with
    | (p, .throw) => (p, .throw)
    | (p, .normal) => ({ p with observing := true, vcInit := true }, .normal)

/-- The decision `blocked` of `start` (cs.js 175-180). -/
def blocked (data : StorageData) (currentDomain : String) : Bool :=
  if data.whitelistMode then
    if !(data.whitelist.any (fun d => includes currentDomain d)) then true else false
  else
    if data.fqdns.any (fun d => includes currentDomain d) then true else false

/-- The debug block of `start` (cs.js 171). -/
def loadDebugMode (data : StorageData) (p : Page) : Page :=
  match data.debugMode with
  | some d => { p with debugMode := d }
  | none => p

/-- The settings block of `start` (cs.js 187-191). -/
def loadSiteSettings (data : StorageData) (currentDomain : String) (p : Page) : Page :=
  match data.siteSettings.lookup currentDomain with
  | none => p
  | some s =>
    let p := match s.volume with
      | some parsed =>
        { p with vars := { p.vars with
            dB := .num (if parsed.truthy then parsed else .fin 0) } }
      | none => p
    if s.mono ≠ .undefined then { p with vars := { p.vars with mono := s.mono } }
    else p

/-- Source: `start` (cs.js 165-195).  `toLowerCase` is the builtin,
`hasBrowserAPI` is `browserAPI` being set, `lastError` is
`browserAPI.runtime.lastError` being set in the callback, `href` is
`window.location.href`. -/
def start (toLowerCase : String → String) (hasBrowserAPI lastError : Bool)
    (data : StorageData) (href : String) (hooks : Nat → HookOutcome) (p : Page) :
    Page × Completion :=
  if !hasBrowserAPI then (p, .normal)
  else if lastError then (p, .normal)
  else
    let p := loadDebugMode data p
    let currentDomain := Cs.extractRootDomain toLowerCase (some href)
    if blocked data currentDomain then
      ({ p with vars := { p.vars with isBlocked := true } }, .normal)
    else
      let p := loadSiteSettings data currentDomain p
      init hooks p

/-! ## Events of a page's life -/

/-- What can happen on a page once the content script is loaded: a message
arrives, `connectOutput` is called on an element (by the initial scan or by
the mutation observer), the context changes state and `onstatechange` runs
(cs.js 99-101), or the `resume()` started by a click settles and its
continuation `applyState` runs (cs.js 151-153). -/
inductive Event where
  | message (msg : Message) (sched : SchedOutcome)
  | hook (i : Nat) (o : HookOutcome)
  | stateChange (state : String) (sched : SchedOutcome)
  | resumed (sched : SchedOutcome)
  deriving DecidableEq, Repr

/-- One event. -/
def step (p : Page) : Event → Page
  | .message msg sched => { p with vars := (onMessage sched p.vars msg).vars }
  | .hook i o => (connectOutput o p i).1
  | .stateChange state sched =>
    match p.vars.audioCtx with
    | none => p
    | some ctx =>
      let v := { p.vars with audioCtx := some { ctx with state := state } }
      { p with vars := if state = "running" then applyState sched v else v }
  | .resumed sched => { p with vars := applyState sched p.vars }

/-- A sequence of events, in order. -/
def run (p : Page) (evs : List Event) : Page := evs.foldl step p

/-- An operation of the content script: an event, or `start`. -/
inductive Op where
  | event (e : Event)
  | start (hasBrowserAPI lastError : Bool) (data : StorageData) (href : String)
      (hooks : Nat → HookOutcome)

/-- One operation; `toLowerCase` is the builtin that `start` calls. -/
def Op.apply (toLowerCase : String → String) (p : Page) : Op → Page
  | .event e => step p e
  | .start a l data href hooks => (VolumeControl.start toLowerCase a l data href hooks p).1

/-- A sequence of operations, in order. -/
def runOps (toLowerCase : String → String) (p : Page) (ops : List Op) : Page :=
  ops.foldl (Op.apply toLowerCase) p

/-- The page when the content script is loaded (cs.js 3-15), with the media
elements `elements`. -/
def Page.initial (elements : List Element) : Page :=
  { vars := { dB := .num (.fin 0), mono := .bool false, audioCtx := none, gainNode := none,
              isBlocked := false }
    debugMode := false
    elements := elements
    vcInit := false
    observing := false
    contexts := 0
    gainNodes := 0
    sources := []
    edges := [] }

/-- The URL `S "://" ["www."] h [":" port] ["/" rest]`; `none` is an absent
optional part. -/
def urlOf (S : String) (www : Bool) (h : String) (port rest : Option String) : String :=
  S ++ "://" ++ (if www then "www." else "") ++ h ++
    (match port with
      | some q => ":" ++ q
      | none => "") ++
    (match rest with
      | some r => "/" ++ r
      | none => "")

/-! ## Invariants of the page -/

/-- The graph agrees with the shared state: when both the context and the gain
node exist, `gain.value` is `getGainValue(dB)` and the channel configuration
is single-channel explicit for a truthy `mono`, two-channel max otherwise. -/
def Consistent (v : Vars) : Prop :=
  match v.audioCtx, v.gainNode with
  | some _, some g =>
    g.value = getGainValue v.dB ∧
      g.channelCountMode = (if v.mono.truthy then "explicit" else "max") ∧
      g.channelCount = (if v.mono.truthy then 1 else 2)
  | _, _ => True

instance (v : Vars) : Decidable (Consistent v) := by
  unfold Consistent
  split <;> infer_instance

/-- The page has made no audio object yet. -/
def Fresh (p : Page) : Prop :=
  p.vars.audioCtx = none ∧ p.vars.gainNode = none ∧ p.contexts = 0 ∧ p.gainNodes = 0 ∧
    p.edges = []

instance (p : Page) : Decidable (Fresh p) := by
  unfold Fresh
  infer_instance

/-- The graph agrees with the shared state and a gain node never exists
without its context. -/
def Sound (v : Vars) : Prop :=
  Consistent v ∧ (v.gainNode.isSome = true → v.audioCtx.isSome = true)

/-- Identity of the stored context, if any. -/
def ctxId (v : Vars) : Option Nat := v.audioCtx.map (fun c => c.id)

/-- Identity of the stored gain node, if any. -/
def gainId (v : Vars) : Option Nat := v.gainNode.map (fun g => g.id)

/-- The stored context and gain node are the only ones ever made (each is
object number 0 of its kind), and every connection made goes through them. -/
def OneGraph (p : Page) : Prop :=
  (ctxId p.vars = none ∧ p.contexts = 0 ∨ ctxId p.vars = some 0 ∧ p.contexts = 1) ∧
  (gainId p.vars = none ∧ p.gainNodes = 0 ∧ p.edges = [] ∨
    gainId p.vars = some 0 ∧ p.gainNodes = 1 ∧ ctxId p.vars = some 0) ∧
  ∀ e ∈ p.edges, (∃ i, e = Edge.sourceToGain i 0) ∨ e = Edge.gainToDestination 0 0

/-- The outcomes under which a source is obtained and both connections are
made: the unwrapped attempt (made when the element exposes the handle) or else
the direct attempt returns, then both `connect` calls return. -/
def hookOk (o : HookOutcome) (p : Page) (e : Element) : Bool :=
  p.vars.audioCtx.isSome && ((e.wrappedJSObject && o.unwrapped) || o.direct) &&
    p.vars.gainNode.isSome && o.sourceConnect && o.gainConnect

/-! ## A sample page -/

/-- A page with a video and an audio element, neither hooked. -/
def samplePage : Page :=
  Page.initial
    [{ tagName := "VIDEO", vcHooked := none, wrappedJSObject := true, border := "" },
     { tagName := "AUDIO", vcHooked := none, wrappedJSObject := false, border := "" }]

/-- Outcomes of a hook in which every browser call returns; the context is
made in the `running` state. -/
def allGood : HookOutcome :=
  { ctor := some "running", createGain := true, schedCreate := .ok, unwrapped := true,
    direct := true,
    sourceConnect := true, gainConnect := true, schedHook := .ok }

/-- The video is hooked, the popup sets +6 dB and then mono, and only then the
audio element is hooked. -/
def sampleEvents : List Event :=
  [Event.hook 0 allGood,
   Event.message ⟨"setVolume", .num (.fin 6), .undefined⟩ .ok,
   Event.message ⟨"setMono", .undefined, .bool true⟩ .ok,
   Event.hook 1 allGood]

/-- Stored data that excludes `example.com`. -/
def sampleExclusions : StorageData :=
  { fqdns := ["example.com"], whitelist := [], whitelistMode := false, siteSettings := [],
    debugMode := none }

/-- Stored data in whitelist mode that admits `good.com` only. -/
def sampleWhitelist : StorageData :=
  { fqdns := [], whitelist := ["good.com"], whitelistMode := true, siteSettings := [],
    debugMode := none }

/-- The sample page after `start` found its domain excluded. -/
def sampleBlocked : Page :=
  (start asciiToLowerCase true false sampleExclusions "https://shop.example.com/watch"
    (fun _ => allGood) samplePage).1

/-! ## Lemmas on strings -/

theorem dropPrefix?_isSome_iff (p s : List Char) : (dropPrefix? p s).isSome = true ↔ p <+: s := by
  induction p generalizing s with
  | nil => simp [dropPrefix?]
  | cons a p ih =>
    cases s with
    | nil => simp [dropPrefix?]
    | cons c s =>
      by_cases hac : a = c
      · subst hac
        simp [dropPrefix?, ih, List.cons_prefix_cons]
      · simp [dropPrefix?, hac, List.cons_prefix_cons]

theorem dropPrefix?_append (p r : List Char) : dropPrefix? p (p ++ r) = some r := by
  induction p with
  | nil => simp [dropPrefix?]
  | cons a p ih => simp [dropPrefix?, ih]

theorem includesChars_iff (s d : List Char) : includesChars s d = true ↔ d <:+: s := by
  induction s with
  | nil =>
    simp [includesChars, dropPrefix?_isSome_iff]
  | cons c s ih =>
    simp [includesChars, dropPrefix?_isSome_iff, ih, List.infix_cons_iff]

theorem includes_iff (s d : String) : includes s d = true ↔ d.data <:+: s.data :=
  includesChars_iff s.data d.data

theorem any_includes_iff (l : List String) (s : String) :
    l.any (fun d => includes s d) = true ↔ ∃ d ∈ l, d.data <:+: s.data := by
  simp [List.any_eq_true, includes_iff]

theorem splitHead_append (sep : Char) (h t : List Char) (hh : sep ∉ h) :
    splitHead sep (h ++ t) = h ++ splitHead sep t := by
  unfold splitHead
  apply List.takeWhile_append_of_pos
  intro a ha
  have : a ≠ sep := fun e => hh (e ▸ ha)
  simpa using this

theorem splitHead_self (sep : Char) (h : List Char) (hh : sep ∉ h) : splitHead sep h = h := by
  have := splitHead_append sep h [] hh
  simpa [splitHead] using this

/-- What follows the host in a URL: nothing, or text that starts with `:` or `/`. -/
theorem urlTail_cases (port rest : Option String) :
    let t := (match port with
      | some q => ":" ++ q
      | none => "").data ++
      (match rest with
      | some r => "/" ++ r
      | none => "").data
    t = [] ∨ ∃ c t', t = c :: t' ∧ (c = ':' ∨ c = '/') := by
  intro t
  cases port with
  | none =>
    cases rest with
    | none => left; rfl
    | some r =>
      right
      exact ⟨'/', r.data, by simp [t, String.data_append], Or.inr rfl⟩
  | some q =>
    right
    refine ⟨':', q.data ++ (match rest with
      | some r => "/" ++ r
      | none => "").data, ?_, Or.inl rfl⟩
    simp [t, String.data_append]

theorem splitHead_host (h t : List Char) (hs : '/' ∉ h) (hc : ':' ∉ h)
    (ht : t = [] ∨ ∃ c t', t = c :: t' ∧ (c = ':' ∨ c = '/')) :
    splitHead ':' (splitHead '/' (h ++ t)) = h := by
  rw [splitHead_append '/' h t hs]
  rcases ht with rfl | ⟨c, t', rfl, rfl | rfl⟩
  · simpa [splitHead] using splitHead_self ':' h hc
  · rw [splitHead_append ':' h _ hc]
    simp [splitHead]
  · simpa [splitHead] using splitHead_self ':' h hc

theorem dropWww_none (h t : List Char) (hw : dropPrefix? "www.".data h = none)
    (ht : t = [] ∨ ∃ c t', t = c :: t' ∧ (c = ':' ∨ c = '/')) :
    dropPrefix? "www.".data (h ++ t) = none := by
  have hlit : "www.".data = ['w', 'w', 'w', '.'] := rfl
  rw [hlit] at hw ⊢
  rcases ht with rfl | ⟨c, t', rfl, hcc⟩
  · simpa using hw
  · rcases h with _ | ⟨a, _ | ⟨b, _ | ⟨c3, _ | ⟨d, h'⟩⟩⟩⟩
    · rcases hcc with rfl | rfl <;> simp [dropPrefix?]
    · rcases hcc with rfl | rfl <;> simp [dropPrefix?]
    · rcases hcc with rfl | rfl <;> simp [dropPrefix?]
    · rcases hcc with rfl | rfl <;> simp [dropPrefix?]
    · simp only [dropPrefix?, List.cons_append] at hw ⊢
      split_ifs at hw ⊢ <;> simp_all [dropPrefix?]

theorem stripSchemeAndWww_scheme (S : List Char)
    (hS : S = "http".data ∨ S = "https".data ∨ S = "ftp".data) (r : List Char) :
    stripSchemeAndWww (S ++ "://".data ++ r) =
      match dropPrefix? "www.".data r with
      | some r2 => r2
      | none => r := by
  rcases hS with rfl | rfl | rfl
  · have e : "http".data ++ "://".data ++ r = "http://".data ++ r := rfl
    have n : dropPrefix? "https://".data ("http://".data ++ r) = none := rfl
    rw [e]
    simp only [stripSchemeAndWww, n, dropPrefix?_append]
  · have e : "https".data ++ "://".data ++ r = "https://".data ++ r := rfl
    rw [e]
    simp only [stripSchemeAndWww, dropPrefix?_append]
  · have e : "ftp".data ++ "://".data ++ r = "ftp://".data ++ r := rfl
    have n1 : dropPrefix? "https://".data ("ftp://".data ++ r) = none := rfl
    have n2 : dropPrefix? "http://".data ("ftp://".data ++ r) = none := rfl
    rw [e]
    simp only [stripSchemeAndWww, n1, n2, dropPrefix?_append]

theorem urlOf_data (S : String) (www : Bool) (h : String) (port rest : Option String) :
    (urlOf S www h port rest).data =
      S.data ++ "://".data ++ ((if www then "www." else "").data ++ (h.data ++
        ((match port with
          | some q => ":" ++ q
          | none => "").data ++
        (match rest with
          | some r => "/" ++ r
          | none => "").data))) := by
  simp [urlOf, String.data_append, List.append_assoc]

/-! ## Domain normalisation -/

/-- C4: on a URL `S "://" ["www."] h [":" port] ["/" rest]` with `S` one of
`http`, `https`, `ftp`, where `h` holds neither `/` nor `:` and does not begin
with `www.` when the optional `www.` is absent, the content script's
`extractRootDomain` returns `h` lower-cased, that is `h.toLowerCase()` for the
builtin `toLowerCase`, whatever that builtin does to `h`; on the empty and on
the absent URL it returns the empty string. -/
theorem extractRootDomain_url_form (toLowerCase : String → String) (S : String) (www : Bool)
    (h : String) (port rest : Option String)
    (hS : S = "http" ∨ S = "https" ∨ S = "ftp")
    (hslash : '/' ∉ h.data) (hcolon : ':' ∉ h.data)
    (hwww : www = false → startsWith h "www." = false) :
    Cs.extractRootDomain toLowerCase (some (urlOf S www h port rest)) = toLowerCase h
      ∧ Cs.extractRootDomain toLowerCase (some "") = ""
      ∧ Cs.extractRootDomain toLowerCase none = "" := by
  refine ⟨?_, rfl, rfl⟩
  have hS' : S.data = "http".data ∨ S.data = "https".data ∨ S.data = "ftp".data := by
    rcases hS with rfl | rfl | rfl <;> simp
  have hne : (urlOf S www h port rest).data.isEmpty = false := by
    rw [urlOf_data]
    rcases hS with rfl | rfl | rfl <;> rfl
  have ht := urlTail_cases port rest
  simp only [Cs.extractRootDomain, hne, Bool.false_eq_true, if_false]
  rw [urlOf_data, stripSchemeAndWww_scheme S.data hS']
  have key : ∀ l : List Char, l = h.data → toLowerCase (String.mk l) = toLowerCase h := by
    intro l hl
    rw [hl]
  apply key
  cases www with
  | true =>
    have e : (if true = true then "www." else "").data = "www.".data := rfl
    rw [e, dropPrefix?_append]
    exact splitHead_host h.data _ hslash hcolon ht
  | false =>
    have e : (if false = true then "www." else "").data = [] := rfl
    have hw : dropPrefix? "www.".data h.data = none := by
      have := hwww rfl
      simpa [startsWith] using this
    rw [e, List.nil_append, dropWww_none h.data _ hw ht]
    exact splitHead_host h.data _ hslash hcolon ht

/-- C4, on the two URLs of the specification, whose letters are ASCII. -/
theorem extractRootDomain_url_form_witness :
    Cs.extractRootDomain asciiToLowerCase (some "https://www.Example.com:8080/a/b")
        = "example.com"
      ∧ Cs.extractRootDomain asciiToLowerCase (some "ftp://sub.Example.org/x")
        = "sub.example.org" :=
  ⟨(extractRootDomain_url_form asciiToLowerCase "https" true "Example.com" (some "8080")
      (some "a/b") (by decide) (by decide) (by decide) (by decide)).1,
   (extractRootDomain_url_form asciiToLowerCase "ftp" false "sub.Example.org" none (some "x")
      (by decide) (by decide) (by decide) (by decide)).1⟩

/-- C5, as stated, fails: on the non-empty URL `about:blank` the content
script computes the domain `about` and the popup computes no domain, and on
the non-empty URL `file:///home/u/clip.mp4` the content script computes `file`
and the popup computes `Local File`. -/
theorem extractRootDomain_popup_differs :
    "about:blank" ≠ "" ∧ Cs.extractRootDomain asciiToLowerCase (some "about:blank") = "about"
      ∧ Popup.extractRootDomain asciiToLowerCase (some "about:blank") = none
      ∧ "file:///home/u/clip.mp4" ≠ ""
      ∧ Cs.extractRootDomain asciiToLowerCase (some "file:///home/u/clip.mp4") = "file"
      ∧ Popup.extractRootDomain asciiToLowerCase (some "file:///home/u/clip.mp4")
        = some "Local File" := by
  decide

/-- C5, amended: on a non-empty URL that does not begin with `file:`, the
popup gives no domain when the URL begins with `chrome`, `edge`, `about` or
`extension`, and otherwise gives exactly the domain the content script
computes; on the empty and on the absent URL the content script gives the
empty domain and the popup none.  This holds whatever the builtin
`toLowerCase` does. -/
theorem extractRootDomain_popup_eq_cs (toLowerCase : String → String) (u : String)
    (hne : u ≠ "") (hfile : startsWith u "file:" = false) :
    Popup.extractRootDomain toLowerCase (some u) =
        (if startsWith u "chrome" || startsWith u "edge" || startsWith u "about"
            || startsWith u "extension" then none
         else some (Cs.extractRootDomain toLowerCase (some u)))
      ∧ Cs.extractRootDomain toLowerCase (some "") = ""
      ∧ Popup.extractRootDomain toLowerCase (some "") = none
      ∧ Cs.extractRootDomain toLowerCase none = ""
      ∧ Popup.extractRootDomain toLowerCase none = none := by
  refine ⟨?_, rfl, rfl, rfl, rfl⟩
  have hd : u.data.isEmpty = false := by
    cases hu : u.data with
    | nil => exact absurd (String.ext hu) hne
    | cons c cs => rfl
  simp only [Popup.extractRootDomain, Cs.extractRootDomain, hd, hfile, Bool.false_eq_true,
    if_false]

/-- C5 amended, on a page URL and on a browser page. -/
theorem extractRootDomain_popup_eq_cs_witness :
    Popup.extractRootDomain asciiToLowerCase (some "https://www.Example.com:8080/a/b")
        = some "example.com"
      ∧ Popup.extractRootDomain asciiToLowerCase (some "chrome://settings") = none :=
  ⟨(extractRootDomain_popup_eq_cs asciiToLowerCase "https://www.Example.com:8080/a/b"
      (by decide) (by decide)).1,
   (extractRootDomain_popup_eq_cs asciiToLowerCase "chrome://settings"
      (by decide) (by decide)).1⟩

/-! ## Lemmas on the audio graph -/

theorem applyState_dB (s : SchedOutcome) (v : Vars) : (applyState s v).dB = v.dB := by
  unfold applyState; split <;> rfl

theorem applyState_mono (s : SchedOutcome) (v : Vars) : (applyState s v).mono = v.mono := by
  unfold applyState; split <;> rfl

theorem applyState_isBlocked (s : SchedOutcome) (v : Vars) :
    (applyState s v).isBlocked = v.isBlocked := by
  unfold applyState; split <;> rfl

theorem applyState_audioCtx (s : SchedOutcome) (v : Vars) :
    (applyState s v).audioCtx = v.audioCtx := by
  unfold applyState; split <;> rfl

theorem scheduleGain_id (s : SchedOutcome) (t : Gain) (g : GainNode) :
    (scheduleGain s t g).id = g.id := by
  cases s <;> rfl

theorem scheduleGain_value (s : SchedOutcome) (t : Gain) (g : GainNode) :
    (scheduleGain s t g).value = g.value := by
  cases s <;> rfl

theorem setChannels_id (m : JSVal) (g : GainNode) : (setChannels m g).id = g.id := by
  unfold setChannels; split <;> rfl

theorem setChannels_value (m : JSVal) (g : GainNode) : (setChannels m g).value = g.value := by
  unfold setChannels; split <;> rfl

theorem setChannels_mode (m : JSVal) (g : GainNode) :
    (setChannels m g).channelCountMode = (if m.truthy then "explicit" else "max") := by
  unfold setChannels; split <;> rfl

theorem setChannels_count (m : JSVal) (g : GainNode) :
    (setChannels m g).channelCount = (if m.truthy then 1 else 2) := by
  unfold setChannels; split <;> rfl

/-- The gain node survives `applyState` with its identity. -/
theorem applyState_gainNode (s : SchedOutcome) (v : Vars) :
    (applyState s v).gainNode.map (fun g => g.id) = v.gainNode.map (fun g => g.id) := by
  unfold applyState
  split
  · next g c hg hc =>
    simp only [hg, Option.map_some', setChannels_id]
    split_ifs
    · rw [scheduleGain_id]
    · rfl
  · rfl

theorem applyState_consistent (s : SchedOutcome) (v : Vars) : Consistent (applyState s v) := by
  unfold applyState
  split
  · next g c hg hc =>
    simp only [Consistent, hc, setChannels_value, setChannels_mode, setChannels_count]
    refine ⟨?_, trivial, trivial⟩
    split_ifs
    · rw [scheduleGain_value]
    · rfl
  · next h =>
    unfold Consistent
    split
    · next c g hc hg => exact (h g c hg hc).elim
    · trivial

theorem hookFailed_eq (p : Page) (i : Nat) (e : Element) :
    hookFailed p i e = p ∨
      hookFailed p i e = { p with elements := p.elements.set i { e with border := "5px solid red" } } := by
  unfold hookFailed
  split
  · right; rfl
  · left; rfl

theorem hookBody_success (o : HookOutcome) (p : Page) (i : Nat) (e : Element)
    (h : hookOk o p e = true) :
    ∃ g c, p.vars.gainNode = some g ∧ p.vars.audioCtx = some c ∧
      hookBody o p i e =
        { p with
          sources := p.sources ++ [i]
          edges := p.edges ++ [Edge.sourceToGain i g.id] ++ [Edge.gainToDestination g.id c.id]
          vars := applyState o.schedHook p.vars
          elements := p.elements.set i
            { e with vcHooked := some "true"
                     border := if p.debugMode then "2px solid #00ff00" else "" } } := by
  simp only [hookOk, Bool.and_eq_true, Bool.or_eq_true] at h
  obtain ⟨⟨⟨⟨hc, hsrc⟩, hg⟩, hsc⟩, hgc⟩ := h
  obtain ⟨c, hc⟩ := Option.isSome_iff_exists.mp hc
  obtain ⟨g, hg⟩ := Option.isSome_iff_exists.mp hg
  refine ⟨g, c, hg, hc, ?_⟩
  have hs : (!(e.wrappedJSObject && o.unwrapped) && !o.direct) = false := by
    rcases hsrc with h1 | h1
    · simp [h1.1, h1.2]
    · simp [h1]
  simp only [hookBody, hc, hg, hs, hsc, hgc, Bool.not_true, Bool.false_eq_true, if_false]
  cases p.debugMode <;> rfl

theorem hookBody_failure (o : HookOutcome) (p : Page) (i : Nat) (e : Element)
    (h : hookOk o p e = false) :
    ∃ q : Page, hookBody o p i e = hookFailed q i e ∧ q.vars = p.vars ∧
      q.debugMode = p.debugMode ∧ q.elements = p.elements ∧ q.contexts = p.contexts ∧
      q.gainNodes = p.gainNodes ∧ q.vcInit = p.vcInit ∧ q.observing = p.observing ∧
      (q.edges = p.edges ∨
        ∃ g, p.vars.gainNode = some g ∧ q.edges = p.edges ++ [Edge.sourceToGain i g.id]) := by
  unfold hookBody
  split
  · exact ⟨p, rfl, rfl, rfl, rfl, rfl, rfl, rfl, rfl, Or.inl rfl⟩
  · next c hc =>
    simp only
    split
    · exact ⟨p, rfl, rfl, rfl, rfl, rfl, rfl, rfl, rfl, Or.inl rfl⟩
    · next hsrc =>
      split
      · exact ⟨_, rfl, rfl, rfl, rfl, rfl, rfl, rfl, rfl, Or.inl rfl⟩
      · next g hg =>
        split
        · exact ⟨_, rfl, rfl, rfl, rfl, rfl, rfl, rfl, rfl, Or.inl rfl⟩
        · next hsc =>
          split
          · exact ⟨_, rfl, rfl, rfl, rfl, rfl, rfl, rfl, rfl, Or.inr ⟨g, hg, rfl⟩⟩
          · next hgc =>
            exfalso
            simp only [Bool.and_eq_true, Bool.not_eq_true', not_and, Bool.not_eq_false] at hsrc
            have hg' : p.vars.gainNode = some g := hg
            simp only [hookOk, hc, hg', Option.isSome_some, Bool.true_and, Bool.and_true] at h
            revert hsrc hsc hgc h
            cases e.wrappedJSObject <;> cases o.unwrapped <;> cases o.direct <;>
              cases o.sourceConnect <;> cases o.gainConnect <;> decide

theorem ensureContext_cases (o : HookOutcome) (p p1 : Page) (h : ensureContext o p = some p1) :
    (p.vars.audioCtx.isSome = true ∧ p1 = p) ∨
      (p.vars.audioCtx = none ∧ ∃ st, o.ctor = some st ∧
        p1 = { p with
          vars := { p.vars with audioCtx := some { id := p.contexts, state := st } }
          contexts := p.contexts + 1 }) := by
  unfold ensureContext at h
  split at h
  · next c hc =>
    left
    exact ⟨by simp [hc], (Option.some.inj h).symm⟩
  · next hc =>
    right
    refine ⟨hc, ?_⟩
    split at h
    · exact absurd h (by simp)
    · next st hst => exact ⟨st, hst, (Option.some.inj h).symm⟩

theorem ensureContext_none (o : HookOutcome) (p : Page) (h : ensureContext o p = none) :
    p.vars.audioCtx = none ∧ o.ctor = none := by
  unfold ensureContext at h
  split at h
  · exact absurd h (by simp)
  · next hc =>
    split at h
    · next hn => exact ⟨hc, hn⟩
    · exact absurd h (by simp)

theorem ensureContext_isSome (o : HookOutcome) (p p1 : Page) (h : ensureContext o p = some p1) :
    p1.vars.audioCtx.isSome = true := by
  rcases ensureContext_cases o p p1 h with ⟨hc, rfl⟩ | ⟨_, st, _, rfl⟩
  · exact hc
  · rfl

/-- The three ways the gain-node line goes on a page that has a context: a
node is stored already, `createGain` returns a new one, or `createGain`
throws. -/
theorem ensureGainNode_cases (o : HookOutcome) (p1 : Page)
    (hctx : p1.vars.audioCtx.isSome = true) :
    (p1.vars.gainNode.isSome = true ∧ ensureGainNode o p1 = (p1, .normal)) ∨
      (p1.vars.gainNode = none ∧ o.createGain = true ∧
        ensureGainNode o p1 =
          ({ p1 with
              vars := applyState o.schedCreate
                { p1.vars with gainNode := some (freshGainNode p1.gainNodes) }
              gainNodes := p1.gainNodes + 1 }, .normal)) ∨
      (p1.vars.gainNode = none ∧ o.createGain = false ∧ ensureGainNode o p1 = (p1, .throw)) := by
  obtain ⟨c, hc⟩ := Option.isSome_iff_exists.mp hctx
  unfold ensureGainNode
  cases hg : p1.vars.gainNode with
  | some g => left; exact ⟨rfl, by simp⟩
  | none =>
    right
    simp only [Option.isNone_none, if_true]
    unfold createGainNode
    simp only [hc, hg]
    cases hcg : o.createGain with
    | true => left; exact ⟨trivial, rfl, rfl⟩
    | false => right; exact ⟨trivial, rfl, rfl⟩

/-- The page on which `connectOutput` runs its `try` block: the context and
the gain node are in place. -/
theorem prepared_cases (o : HookOutcome) (p p1 p2 : Page) (h : ensureContext o p = some p1)
    (h2 : ensureGainNode o p1 = (p2, .normal)) :
    (p2 = p1 ∧ p1.vars.gainNode.isSome = true ∧ p1.vars.audioCtx.isSome = true) ∨
      (p1.vars.audioCtx.isSome = true ∧ p1.vars.gainNode = none ∧
        p2 = { p1 with
          vars := applyState o.schedCreate
            { p1.vars with gainNode := some (freshGainNode p1.gainNodes) }
          gainNodes := p1.gainNodes + 1 }) := by
  have hctx := ensureContext_isSome o p p1 h
  rcases ensureGainNode_cases o p1 hctx with ⟨hg, e⟩ | ⟨hg, _, e⟩ | ⟨_, _, e⟩
  · rw [e] at h2
    left
    exact ⟨(Prod.mk.inj h2).1.symm, hg, hctx⟩
  · rw [e] at h2
    right
    exact ⟨hctx, hg, (Prod.mk.inj h2).1.symm⟩
  · rw [e] at h2
    exact absurd (Prod.mk.inj h2).2 (by decide)

theorem hookBody_vars (o : HookOutcome) (p : Page) (i : Nat) (e : Element) :
    (hookBody o p i e).vars = p.vars ∨ (hookBody o p i e).vars = applyState o.schedHook p.vars := by
  cases h : hookOk o p e with
  | true =>
    obtain ⟨g, c, _, _, heq⟩ := hookBody_success o p i e h
    right; rw [heq]
  | false =>
    obtain ⟨q, heq, hv, _⟩ := hookBody_failure o p i e h
    left
    rw [heq]
    rcases hookFailed_eq q i e with h1 | h1 <;> rw [h1] <;> exact hv

theorem hookBody_counts (o : HookOutcome) (p : Page) (i : Nat) (e : Element) :
    (hookBody o p i e).contexts = p.contexts ∧ (hookBody o p i e).gainNodes = p.gainNodes ∧
      (hookBody o p i e).debugMode = p.debugMode := by
  cases h : hookOk o p e with
  | true =>
    obtain ⟨g, c, _, _, heq⟩ := hookBody_success o p i e h
    rw [heq]; exact ⟨rfl, rfl, rfl⟩
  | false =>
    obtain ⟨q, heq, _, hd, _, hc, hg, _⟩ := hookBody_failure o p i e h
    rw [heq]
    rcases hookFailed_eq q i e with h1 | h1 <;> rw [h1] <;> exact ⟨hc, hg, hd⟩

/-- The four ways a call of `connectOutput` goes: it returns at once, the
constructor throws, `createGain` throws, or the `try` block runs on the
prepared page. -/
theorem connectOutput_cases (o : HookOutcome) (p : Page) (i : Nat) :
    (connectOutput o p i = (p, .normal) ∧
        (p.elements[i]? = none ∨ ∃ e, p.elements[i]? = some e ∧ e.vcHooked = some "true")) ∨
      (connectOutput o p i = (p, .throw) ∧ p.vars.audioCtx = none ∧ o.ctor = none ∧
        ∃ e, p.elements[i]? = some e ∧ e.vcHooked ≠ some "true") ∨
      (∃ e p1, p.elements[i]? = some e ∧ e.vcHooked ≠ some "true" ∧
        ensureContext o p = some p1 ∧ p1.vars.gainNode = none ∧ o.createGain = false ∧
        connectOutput o p i = (p1, .throw)) ∨
      (∃ e p1 p2, p.elements[i]? = some e ∧ e.vcHooked ≠ some "true" ∧
        ensureContext o p = some p1 ∧ ensureGainNode o p1 = (p2, .normal) ∧
        connectOutput o p i = (hookBody o p2 i e, .normal)) := by
  unfold connectOutput
  cases he : p.elements[i]? with
  | none => left; exact ⟨rfl, Or.inl rfl⟩
  | some e =>
    by_cases hm : e.vcHooked = some "true"
    · left
      simp only [hm, if_true]
      exact ⟨trivial, Or.inr ⟨e, rfl, hm⟩⟩
    · right
      simp only [hm, if_false]
      cases hc : ensureContext o p with
      | none =>
        left
        obtain ⟨h1, h2⟩ := ensureContext_none o p hc
        exact ⟨rfl, h1, h2, e, rfl, hm⟩
      | some p1 =>
        right
        have hctx := ensureContext_isSome o p p1 hc
        rcases ensureGainNode_cases o p1 hctx with ⟨_, eg⟩ | ⟨_, _, eg⟩ | ⟨hg, hcg, eg⟩
        · right
          exact ⟨e, p1, p1, rfl, hm, rfl, eg, by simp only [eg]⟩
        · right
          exact ⟨e, p1, _, rfl, hm, rfl, eg, by simp only [eg]⟩
        · left
          exact ⟨e, p1, rfl, hm, rfl, hg, hcg, by simp only [eg]⟩

theorem ensureContext_scalars (o : HookOutcome) (p p1 : Page) (h : ensureContext o p = some p1) :
    p1.vars.dB = p.vars.dB ∧ p1.vars.mono = p.vars.mono ∧ p1.vars.isBlocked = p.vars.isBlocked ∧
      p1.vars.gainNode = p.vars.gainNode ∧ p1.gainNodes = p.gainNodes ∧
      p1.edges = p.edges ∧ p1.elements = p.elements ∧ p1.debugMode = p.debugMode ∧
      p1.sources = p.sources := by
  rcases ensureContext_cases o p p1 h with ⟨_, rfl⟩ | ⟨_, st, _, rfl⟩ <;>
    exact ⟨rfl, rfl, rfl, rfl, rfl, rfl, rfl, rfl, rfl⟩

theorem prepared_scalars (o : HookOutcome) (p p1 p2 : Page) (h : ensureContext o p = some p1)
    (h2 : ensureGainNode o p1 = (p2, .normal)) :
    p2.vars.dB = p.vars.dB ∧ p2.vars.mono = p.vars.mono ∧ p2.vars.isBlocked = p.vars.isBlocked ∧
      p2.vars.audioCtx = p1.vars.audioCtx ∧ p2.contexts = p1.contexts ∧
      p2.edges = p.edges ∧ p2.elements = p.elements ∧ p2.debugMode = p.debugMode ∧
      p2.sources = p.sources ∧
      p2.vars.audioCtx.isSome = true ∧ p2.vars.gainNode.isSome = true := by
  obtain ⟨h1, h2', h3, h4, h5, h6, h7, h8, h9⟩ := ensureContext_scalars o p p1 h
  rcases prepared_cases o p p1 p2 h h2 with ⟨e, hg, hc⟩ | ⟨hc, hg, e⟩
  · rw [e]
    exact ⟨h1, h2', h3, rfl, rfl, h6, h7, h8, h9, hc, hg⟩
  · rw [e]
    refine ⟨?_, ?_, ?_, ?_, rfl, h6, h7, h8, h9, ?_, ?_⟩
    · simp only [applyState_dB]; exact h1
    · simp only [applyState_mono]; exact h2'
    · simp only [applyState_isBlocked]; exact h3
    · simp only [applyState_audioCtx]
    · simp only [applyState_audioCtx]; exact hc
    · have := applyState_gainNode o.schedCreate
        { p1.vars with gainNode := some (freshGainNode p1.gainNodes) }
      cases hh : (applyState o.schedCreate
        { p1.vars with gainNode := some (freshGainNode p1.gainNodes) }).gainNode with
      | none => rw [hh] at this; simp at this
      | some g => rfl

theorem connectOutput_scalars (o : HookOutcome) (p : Page) (i : Nat) :
    (connectOutput o p i).1.vars.dB = p.vars.dB ∧
      (connectOutput o p i).1.vars.mono = p.vars.mono ∧
      (connectOutput o p i).1.vars.isBlocked = p.vars.isBlocked := by
  rcases connectOutput_cases o p i with ⟨h, _⟩ | ⟨h, _⟩ | ⟨e, p1, _, _, hc, _, _, h⟩ |
    ⟨e, p1, p2, _, _, hc, hg, h⟩
  · rw [h]; exact ⟨rfl, rfl, rfl⟩
  · rw [h]; exact ⟨rfl, rfl, rfl⟩
  · rw [h]
    obtain ⟨h1, h2, h3, _⟩ := ensureContext_scalars o p p1 hc
    exact ⟨h1, h2, h3⟩
  · rw [h]
    obtain ⟨h1, h2, h3, _⟩ := prepared_scalars o p p1 p2 hc hg
    rcases hookBody_vars o p2 i e with hv | hv
    · simp only [hv]; exact ⟨h1, h2, h3⟩
    · simp only [hv, applyState_dB, applyState_mono, applyState_isBlocked]; exact ⟨h1, h2, h3⟩

/-! ## The graph follows the shared state -/

theorem applyState_sound (s : SchedOutcome) (v : Vars)
    (h : v.gainNode.isSome = true → v.audioCtx.isSome = true) : Sound (applyState s v) := by
  refine ⟨applyState_consistent s v, ?_⟩
  intro hg
  rw [applyState_audioCtx]
  apply h
  have := applyState_gainNode s v
  cases hv : v.gainNode with
  | none => rw [hv] at this; cases hh : (applyState s v).gainNode <;> simp_all
  | some g => rfl

theorem sound_of_no_gainNode (v : Vars) (h : v.gainNode = none) : Sound v := by
  refine ⟨?_, by simp [h]⟩
  unfold Consistent
  split
  · next c g hc hg => rw [h] at hg; exact absurd hg (by simp)
  · trivial

theorem connectOutput_sound (o : HookOutcome) (p : Page) (i : Nat) (hp : Sound p.vars) :
    Sound (connectOutput o p i).1.vars := by
  rcases connectOutput_cases o p i with ⟨h, _⟩ | ⟨h, _⟩ | ⟨e, p1, _, _, hc, hg, _, h⟩ |
    ⟨e, p1, p2, _, _, hc, hg, h⟩
  · rw [h]; exact hp
  · rw [h]; exact hp
  · rw [h]
    exact sound_of_no_gainNode p1.vars hg
  · rw [h]
    obtain ⟨_, _, _, _, _, _, _, _, _, hctx, hgain⟩ := prepared_scalars o p p1 p2 hc hg
    have h2 : Sound p2.vars := by
      rcases prepared_cases o p p1 p2 hc hg with ⟨e2, hgs, hcx⟩ | ⟨hcx, hgn, e2⟩
      · rw [e2]
        rcases ensureContext_cases o p p1 hc with ⟨_, rfl⟩ | ⟨hn, st, _, rfl⟩
        · exact hp
        · exfalso
          have := hp.2 hgs
          rw [hn] at this
          simp at this
      · rw [e2]
        exact applyState_sound _ _ (fun _ => hcx)
    rcases hookBody_vars o p2 i e with hv | hv
    · rw [hv]; exact h2
    · rw [hv]; exact applyState_sound _ _ (fun _ => hctx)

theorem onMessage_vars (s : SchedOutcome) (v : Vars) (m : Message) :
    (onMessage s v m).vars = v ∨
      (v.isBlocked = false ∧ m.command = "setVolume" ∧
        (onMessage s v m).vars = applyState s { v with dB := m.dB }) ∨
      (v.isBlocked = false ∧ m.command = "setMono" ∧
        (onMessage s v m).vars = applyState s { v with mono := m.mono }) := by
  unfold onMessage
  cases hb : v.isBlocked with
  | true => left; rfl
  | false =>
    simp only [Bool.false_eq_true, if_false]
    split_ifs with h1 h2 h3 h4 h5
    · left; rfl
    · right; left; exact ⟨trivial, h2, rfl⟩
    · left; rfl
    · right; right; exact ⟨trivial, h4, rfl⟩
    · left; rfl
    · left; rfl

theorem consistent_state (v : Vars) (c : AudioContext) (st : String) (hc : v.audioCtx = some c) :
    Sound { v with audioCtx := some { c with state := st } } ↔ Sound v := by
  unfold Sound Consistent
  simp only [hc, Option.isSome_some]
  cases v.gainNode <;> simp

theorem step_sound (p : Page) (ev : Event) (hp : Sound p.vars) : Sound (step p ev).vars := by
  cases ev with
  | message m s =>
    show Sound (onMessage s p.vars m).vars
    rcases onMessage_vars s p.vars m with h | ⟨_, _, h⟩ | ⟨_, _, h⟩
    · rw [h]; exact hp
    · rw [h]; exact applyState_sound _ _ hp.2
    · rw [h]; exact applyState_sound _ _ hp.2
  | hook i o => exact connectOutput_sound o p i hp
  | stateChange st s =>
    unfold step
    cases hc : p.vars.audioCtx with
    | none => simpa using hp
    | some c =>
      simp only
      split_ifs
      · exact applyState_sound _ _ (fun _ => rfl)
      · exact (consistent_state p.vars c st hc).mpr hp
  | resumed s => exact applyState_sound _ _ hp.2

theorem run_sound (p : Page) (evs : List Event) (hp : Sound p.vars) : Sound (run p evs).vars := by
  induction evs generalizing p with
  | nil => exact hp
  | cons ev evs ih => exact ih (step p ev) (step_sound p ev hp)

theorem run_append (p : Page) (a b : List Event) : run p (a ++ b) = run (run p a) b := by
  simp [run, List.foldl_append]

theorem onMessage_setVolume (s : SchedOutcome) (v : Vars) (m : Message)
    (hb : v.isBlocked = false) (hm : m.command = "setVolume") :
    onMessage s v m =
      { vars := applyState s { v with dB := m.dB }, sent := some .empty, returned := .bool true } := by
  unfold onMessage
  simp only [hb, hm, Bool.false_eq_true, if_false, if_true]
  rfl

theorem onMessage_setMono (s : SchedOutcome) (v : Vars) (m : Message)
    (hb : v.isBlocked = false) (hm : m.command = "setMono") :
    onMessage s v m =
      { vars := applyState s { v with mono := m.mono }, sent := some .empty,
        returned := .bool true } := by
  unfold onMessage
  simp only [hb, hm, Bool.false_eq_true, if_false, if_true]
  rfl

theorem onMessage_isBlocked (s : SchedOutcome) (v : Vars) (m : Message) :
    (onMessage s v m).vars.isBlocked = v.isBlocked := by
  rcases onMessage_vars s v m with h | ⟨_, _, h⟩ | ⟨_, _, h⟩ <;> rw [h]
  · rw [applyState_isBlocked]
  · rw [applyState_isBlocked]

theorem step_isBlocked (p : Page) (ev : Event) : (step p ev).vars.isBlocked = p.vars.isBlocked := by
  cases ev with
  | message m s => exact onMessage_isBlocked s p.vars m
  | hook i o => exact (connectOutput_scalars o p i).2.2
  | stateChange st s =>
    unfold step
    cases hc : p.vars.audioCtx with
    | none => rfl
    | some c =>
      simp only
      split_ifs
      · rw [applyState_isBlocked]
      · rfl
  | resumed s => exact applyState_isBlocked s p.vars

theorem run_isBlocked (p : Page) (evs : List Event) : (run p evs).vars.isBlocked = p.vars.isBlocked := by
  induction evs generalizing p with
  | nil => rfl
  | cons ev evs ih => exact (ih (step p ev)).trans (step_isBlocked p ev)

theorem consistent_unfold (v : Vars) (h : Consistent v) (c : AudioContext) (g : GainNode)
    (hc : v.audioCtx = some c) (hg : v.gainNode = some g) :
    g.value = getGainValue v.dB ∧
      (v.mono.truthy = true → g.channelCountMode = "explicit" ∧ g.channelCount = 1) ∧
      (v.mono.truthy = false → g.channelCountMode = "max" ∧ g.channelCount = 2) := by
  unfold Consistent at h
  simp only [hc, hg] at h
  obtain ⟨h1, h2, h3⟩ := h
  refine ⟨h1, ?_, ?_⟩
  · intro ht; rw [ht] at h2 h3; exact ⟨h2, h3⟩
  · intro ht; rw [ht] at h2 h3; exact ⟨h2, h3⟩

/-- C1: from a page that has no gain node yet, after every sequence of events
(messages, `connectOutput` calls whatever their outcomes, context state
changes, resumptions) the graph agrees with the shared state: if the context
and the gain node both exist, `gain.value` is `getGainValue(dB)` for the
current `dB` and the channel configuration is (`explicit`, 1) for a true
`mono`, (`max`, 2) for a false one.  In particular, on an active page, when
`setMono(true)` is handled and then an element is hooked, the gain node is
single-channel explicit after that hook. -/
theorem graph_agrees_with_state (p : Page) (hp : p.vars.gainNode = none) (evs : List Event) :
    (∀ c g, (run p evs).vars.audioCtx = some c → (run p evs).vars.gainNode = some g →
        g.value = getGainValue (run p evs).vars.dB ∧
        ((run p evs).vars.mono.truthy = true →
          g.channelCountMode = "explicit" ∧ g.channelCount = 1) ∧
        ((run p evs).vars.mono.truthy = false →
          g.channelCountMode = "max" ∧ g.channelCount = 2)) ∧
      (p.vars.isBlocked = false →
        ∀ (dB : JSVal) (s : SchedOutcome) (i : Nat) (o : HookOutcome) (g : GainNode),
          (run p (evs ++ [Event.message ⟨"setMono", dB, .bool true⟩ s, Event.hook i o])).vars.gainNode
              = some g →
            g.channelCountMode = "explicit" ∧ g.channelCount = 1) := by
  have h0 : Sound p.vars := sound_of_no_gainNode p.vars hp
  refine ⟨?_, ?_⟩
  · intro c g hc hg
    exact consistent_unfold _ (run_sound p evs h0).1 c g hc hg
  · intro hb dB s i o g hg
    have hs := run_sound p (evs ++ [Event.message ⟨"setMono", dB, .bool true⟩ s, Event.hook i o]) h0
    obtain ⟨c, hc⟩ := Option.isSome_iff_exists.mp (hs.2 (by rw [hg]; rfl))
    have hm : (run p (evs ++ [Event.message ⟨"setMono", dB, .bool true⟩ s,
        Event.hook i o])).vars.mono = .bool true := by
      rw [run_append]
      have hb' : (run p evs).vars.isBlocked = false := (run_isBlocked p evs).trans hb
      show (connectOutput o (step (run p evs) _) i).1.vars.mono = _
      rw [(connectOutput_scalars o _ i).2.1]
      show (onMessage s (run p evs).vars _).vars.mono = _
      rw [onMessage_setMono s _ _ hb' rfl, applyState_mono]
    exact (consistent_unfold _ hs.1 c g hc hg).2.1 (by rw [hm]; rfl)

/-- C1 on the sample page: after the four events the gain node exists, holds
the gain of +6 dB and is single-channel explicit. -/
theorem graph_agrees_with_state_witness :
    samplePage.vars.gainNode = none ∧
      ∃ c g, (run samplePage sampleEvents).vars.audioCtx = some c ∧
        (run samplePage sampleEvents).vars.gainNode = some g ∧
        g.value = getGainValue (.num (.fin 6)) ∧
        g.channelCountMode = "explicit" ∧ g.channelCount = 1 := by
  refine ⟨rfl, ⟨0, "running"⟩, ?_⟩
  have hg : ∃ g, (run samplePage sampleEvents).vars.gainNode = some g := by
    cases h : (run samplePage sampleEvents).vars.gainNode with
    | none => exact absurd h (by decide)
    | some g => exact ⟨g, rfl⟩
  obtain ⟨g, hg⟩ := hg
  have hc : (run samplePage sampleEvents).vars.audioCtx = some ⟨0, "running"⟩ := by decide
  have hd : (run samplePage sampleEvents).vars.dB = .num (.fin 6) := by decide
  have hm : (run samplePage sampleEvents).vars.mono.truthy = true := by decide
  have h := (graph_agrees_with_state samplePage rfl sampleEvents).1 _ g hc hg
  exact ⟨g, hc, hg, hd ▸ h.1, h.2.1 hm⟩

/-! ## One context, one gain node -/

theorem applyState_ctxId (s : SchedOutcome) (v : Vars) : ctxId (applyState s v) = ctxId v := by
  unfold ctxId; rw [applyState_audioCtx]

theorem applyState_gainId (s : SchedOutcome) (v : Vars) : gainId (applyState s v) = gainId v :=
  applyState_gainNode s v

theorem oneGraph_congr (p q : Page) (h1 : ctxId q.vars = ctxId p.vars)
    (h2 : gainId q.vars = gainId p.vars) (h3 : q.contexts = p.contexts)
    (h4 : q.gainNodes = p.gainNodes) (h5 : q.edges = p.edges) (hp : OneGraph p) : OneGraph q := by
  unfold OneGraph at hp ⊢
  rw [h1, h2, h3, h4, h5]
  exact hp

theorem oneGraph_ids (p : Page) (hp : OneGraph p) :
    (∀ c, p.vars.audioCtx = some c → c.id = 0) ∧ (∀ g, p.vars.gainNode = some g → g.id = 0) := by
  obtain ⟨h1, h2, _⟩ := hp
  constructor
  · intro c hc
    have : ctxId p.vars = some c.id := by simp [ctxId, hc]
    rcases h1 with ⟨h, _⟩ | ⟨h, _⟩
    · rw [this] at h; exact absurd h (by simp)
    · rw [this] at h; exact Option.some.inj h
  · intro g hg
    have : gainId p.vars = some g.id := by simp [gainId, hg]
    rcases h2 with ⟨h, _⟩ | ⟨h, _⟩
    · rw [this] at h; exact absurd h (by simp)
    · rw [this] at h; exact Option.some.inj h

theorem ensureContext_oneGraph (o : HookOutcome) (p p1 : Page) (h : ensureContext o p = some p1)
    (hp : OneGraph p) : OneGraph p1 := by
  rcases ensureContext_cases o p p1 h with ⟨_, rfl⟩ | ⟨hn, st, _, rfl⟩
  · exact hp
  · obtain ⟨h1, h2, h3⟩ := hp
    have hcn : ctxId p.vars = none := by simp [ctxId, hn]
    have hc0 : p.contexts = 0 := by
      rcases h1 with ⟨_, h⟩ | ⟨h, _⟩
      · exact h
      · rw [hcn] at h; exact absurd h (by simp)
    refine ⟨Or.inr ⟨by simp [ctxId, hc0], by simp [hc0]⟩, ?_, h3⟩
    rcases h2 with h | ⟨_, _, h⟩
    · left; exact h
    · rw [hcn] at h; exact absurd h (by simp)

theorem prepared_oneGraph (o : HookOutcome) (p p1 p2 : Page) (h : ensureContext o p = some p1)
    (h2' : ensureGainNode o p1 = (p2, .normal)) (hp : OneGraph p1) : OneGraph p2 := by
  rcases prepared_cases o p p1 p2 h h2' with ⟨e, _, _⟩ | ⟨hc, hg, e⟩
  · rw [e]; exact hp
  · rw [e]
    obtain ⟨h1, h2, h3⟩ := hp
    have hgn : gainId p1.vars = none := by simp [gainId, hg]
    obtain ⟨c, hc⟩ := Option.isSome_iff_exists.mp hc
    have hcs : ctxId p1.vars = some c.id := by simp [ctxId, hc]
    have hc1 : ctxId p1.vars = some 0 ∧ p1.contexts = 1 := by
      rcases h1 with ⟨h, _⟩ | h
      · rw [hcs] at h; exact absurd h (by simp)
      · exact h
    have hg0 : p1.gainNodes = 0 := by
      rcases h2 with ⟨_, h, _⟩ | ⟨h, _⟩
      · exact h
      · rw [hgn] at h; exact absurd h (by simp)
    refine ⟨?_, ?_, h3⟩
    · right
      refine ⟨?_, hc1.2⟩
      simp only [applyState_ctxId]
      exact hc1.1
    · right
      refine ⟨?_, by simp [hg0], ?_⟩
      · simp only [applyState_gainId]
        simp [gainId, freshGainNode, hg0]
      · simp only [applyState_ctxId]
        exact hc1.1

theorem hookFailed_oneGraph (q : Page) (i : Nat) (e : Element) (hq : OneGraph q) :
    OneGraph (hookFailed q i e) := by
  rcases hookFailed_eq q i e with h | h <;> rw [h]
  · exact hq
  · exact oneGraph_congr q _ rfl rfl rfl rfl rfl hq

theorem hookBody_oneGraph (o : HookOutcome) (p : Page) (i : Nat) (e : Element)
    (hp : OneGraph p) : OneGraph (hookBody o p i e) := by
  obtain ⟨hcid, hgid⟩ := oneGraph_ids p hp
  cases h : hookOk o p e with
  | true =>
    obtain ⟨g, c, hg, hc, heq⟩ := hookBody_success o p i e h
    rw [heq]
    obtain ⟨h1, h2, h3⟩ := hp
    have hg0 := hgid g hg
    have hc0 := hcid c hc
    have hgs : gainId p.vars = some 0 := by simp [gainId, hg, hg0]
    refine ⟨?_, ?_, ?_⟩
    · simp only [applyState_ctxId]; exact h1
    · right
      simp only [applyState_ctxId, applyState_gainId]
      rcases h2 with ⟨h, _⟩ | h
      · rw [hgs] at h; exact absurd h (by simp)
      · exact h
    · intro ed hed
      simp only [List.mem_append, List.mem_singleton] at hed
      rcases hed with (hed | hed) | hed
      · exact h3 ed hed
      · left; exact ⟨i, by rw [hed, hg0]⟩
      · right; rw [hed, hg0, hc0]
  | false =>
    obtain ⟨q, heq, hv, _, _, hcn, hgn, _, _, hedges⟩ := hookBody_failure o p i e h
    rw [heq]
    apply hookFailed_oneGraph
    rcases hedges with he | ⟨g, hg, he⟩
    · exact oneGraph_congr p q (by rw [hv]) (by rw [hv]) hcn hgn he hp
    · have hg0 := hgid g hg
      have hgs : gainId p.vars = some 0 := by simp [gainId, hg, hg0]
      obtain ⟨h1, h2, h3⟩ := hp
      refine ⟨?_, ?_, ?_⟩
      · rw [hv, hcn]; exact h1
      · right
        rw [hv, hgn]
        rcases h2 with ⟨h, _⟩ | h
        · rw [hgs] at h; exact absurd h (by simp)
        · exact h
      · intro ed hed
        rw [he] at hed
        simp only [List.mem_append, List.mem_singleton] at hed
        rcases hed with hed | hed
        · exact h3 ed hed
        · left; exact ⟨i, by rw [hed, hg0]⟩

theorem connectOutput_oneGraph (o : HookOutcome) (p : Page) (i : Nat) (hp : OneGraph p) :
    OneGraph (connectOutput o p i).1 := by
  rcases connectOutput_cases o p i with ⟨h, _⟩ | ⟨h, _⟩ | ⟨e, p1, _, _, hc, _, _, h⟩ |
    ⟨e, p1, p2, _, _, hc, hg, h⟩
  · rw [h]; exact hp
  · rw [h]; exact hp
  · rw [h]; exact ensureContext_oneGraph o p p1 hc hp
  · rw [h]
    exact hookBody_oneGraph o _ i e
      (prepared_oneGraph o p p1 p2 hc hg (ensureContext_oneGraph o p p1 hc hp))

theorem onMessage_ids (s : SchedOutcome) (v : Vars) (m : Message) :
    (onMessage s v m).vars.audioCtx = v.audioCtx ∧ gainId (onMessage s v m).vars = gainId v := by
  rcases onMessage_vars s v m with h | ⟨_, _, h⟩ | ⟨_, _, h⟩ <;> rw [h]
  · exact ⟨rfl, rfl⟩
  · exact ⟨applyState_audioCtx _ _, applyState_gainId _ _⟩
  · exact ⟨applyState_audioCtx _ _, applyState_gainId _ _⟩

/-- An event other than a hook makes no object and no connection. -/
theorem step_other (p : Page) (ev : Event) (hev : ∀ i o, ev ≠ Event.hook i o) :
    ctxId (step p ev).vars = ctxId p.vars ∧ gainId (step p ev).vars = gainId p.vars ∧
      (step p ev).contexts = p.contexts ∧ (step p ev).gainNodes = p.gainNodes ∧
      (step p ev).edges = p.edges := by
  cases ev with
  | message m s =>
    obtain ⟨h1, h2⟩ := onMessage_ids s p.vars m
    refine ⟨?_, h2, rfl, rfl, rfl⟩
    show ctxId (onMessage s p.vars m).vars = _
    unfold ctxId
    rw [h1]
  | hook i o => exact absurd rfl (hev i o)
  | stateChange st s =>
    unfold step
    cases hc : p.vars.audioCtx with
    | none => exact ⟨rfl, rfl, rfl, rfl, rfl⟩
    | some c =>
      by_cases hr : st = "running"
      · simp only [hr, if_true]
        refine ⟨?_, ?_, trivial, trivial, trivial⟩
        · rw [applyState_ctxId]; simp [ctxId, hc]
        · rw [applyState_gainId]; rfl
      · simp only [hr, if_false]
        refine ⟨?_, ?_, trivial, trivial, trivial⟩
        · simp [ctxId, hc]
        · rfl
  | resumed s => exact ⟨applyState_ctxId _ _, applyState_gainId _ _, rfl, rfl, rfl⟩

theorem step_oneGraph (p : Page) (ev : Event) (hp : OneGraph p) : OneGraph (step p ev) := by
  by_cases hev : ∃ i o, ev = Event.hook i o
  · obtain ⟨i, o, rfl⟩ := hev
    exact connectOutput_oneGraph o p i hp
  · obtain ⟨h1, h2, h3, h4, h5⟩ := step_other p ev (fun i o h => hev ⟨i, o, h⟩)
    exact oneGraph_congr p _ h1 h2 h3 h4 h5 hp

theorem run_oneGraph (p : Page) (evs : List Event) (hp : OneGraph p) : OneGraph (run p evs) := by
  induction evs generalizing p with
  | nil => exact hp
  | cons ev evs ih => exact ih (step p ev) (step_oneGraph p ev hp)

theorem oneGraph_of_fresh (p : Page) (hp : Fresh p) : OneGraph p := by
  obtain ⟨h1, h2, h3, h4, h5⟩ := hp
  refine ⟨Or.inl ⟨by simp [ctxId, h1], h3⟩, Or.inl ⟨by simp [gainId, h2], h4, h5⟩, ?_⟩
  intro e he
  rw [h5] at he
  exact absurd he (by simp)

theorem ensureContext_created (o : HookOutcome) (p p1 : Page)
    (h : ensureContext o p = some p1) :
    p1.contexts = p.contexts ∨ (p.vars.audioCtx = none ∧ p1.contexts = p.contexts + 1) := by
  rcases ensureContext_cases o p p1 h with ⟨_, rfl⟩ | ⟨hn, st, _, rfl⟩
  · left; rfl
  · right; exact ⟨hn, rfl⟩

/-- A context is constructed only by a call that finds none stored, a gain
node only by a call that finds none stored. -/
theorem connectOutput_created (o : HookOutcome) (p : Page) (i : Nat) :
    ((connectOutput o p i).1.contexts = p.contexts ∨
        (p.vars.audioCtx = none ∧ (connectOutput o p i).1.contexts = p.contexts + 1)) ∧
      ((connectOutput o p i).1.gainNodes = p.gainNodes ∨
        (p.vars.gainNode = none ∧ (connectOutput o p i).1.gainNodes = p.gainNodes + 1)) := by
  rcases connectOutput_cases o p i with ⟨h, _⟩ | ⟨h, _⟩ | ⟨e, p1, _, _, hc, _, _, h⟩ |
    ⟨e, p1, p2, _, _, hc, hg, h⟩
  · rw [h]; exact ⟨Or.inl rfl, Or.inl rfl⟩
  · rw [h]; exact ⟨Or.inl rfl, Or.inl rfl⟩
  · rw [h]
    obtain ⟨_, _, _, _, h1n, _⟩ := ensureContext_scalars o p p1 hc
    exact ⟨ensureContext_created o p p1 hc, Or.inl h1n⟩
  · rw [h]
    obtain ⟨h3c, h3g, _⟩ := hookBody_counts o p2 i e
    obtain ⟨_, _, _, _, h2c, _⟩ := prepared_scalars o p p1 p2 hc hg
    obtain ⟨_, _, _, h1g, h1n, _⟩ := ensureContext_scalars o p p1 hc
    simp only [h3c, h3g]
    constructor
    · rw [h2c]
      exact ensureContext_created o p p1 hc
    · rcases prepared_cases o p p1 p2 hc hg with ⟨e2, _, _⟩ | ⟨_, hgn, e2⟩
      · rw [e2]; left; exact h1n
      · rw [e2]
        right
        exact ⟨h1g ▸ hgn, by simp [h1n]⟩

theorem step_created (p : Page) (ev : Event) :
    ((step p ev).contexts = p.contexts ∨
        (p.vars.audioCtx = none ∧ (step p ev).contexts = p.contexts + 1)) ∧
      ((step p ev).gainNodes = p.gainNodes ∨
        (p.vars.gainNode = none ∧ (step p ev).gainNodes = p.gainNodes + 1)) := by
  by_cases hev : ∃ i o, ev = Event.hook i o
  · obtain ⟨i, o, rfl⟩ := hev
    exact connectOutput_created o p i
  · obtain ⟨_, _, h3, h4, _⟩ := step_other p ev (fun i o h => hev ⟨i, o, h⟩)
    exact ⟨Or.inl h3, Or.inl h4⟩

/-- Once stored, the context and the gain node stay stored. -/
theorem connectOutput_keeps (o : HookOutcome) (p : Page) (i : Nat) :
    (p.vars.audioCtx.isSome = true → (connectOutput o p i).1.vars.audioCtx.isSome = true) ∧
      (p.vars.gainNode.isSome = true → (connectOutput o p i).1.vars.gainNode.isSome = true) := by
  rcases connectOutput_cases o p i with ⟨h, _⟩ | ⟨h, _⟩ | ⟨e, p1, _, _, hc, _, _, h⟩ |
    ⟨e, p1, p2, _, _, hc, hg, h⟩
  · rw [h]; exact ⟨id, id⟩
  · rw [h]; exact ⟨id, id⟩
  · rw [h]
    obtain ⟨_, _, _, h1g, _⟩ := ensureContext_scalars o p p1 hc
    exact ⟨fun _ => ensureContext_isSome o p p1 hc, fun hgs => by rw [h1g]; exact hgs⟩
  · rw [h]
    obtain ⟨_, _, _, _, _, _, _, _, _, hctx, hgain⟩ := prepared_scalars o p p1 p2 hc hg
    have key : ∀ v w : Vars, v.audioCtx.isSome = true → v.gainNode.isSome = true →
        (w = v ∨ w = applyState o.schedHook v) →
        w.audioCtx.isSome = true ∧ w.gainNode.isSome = true := by
      intro v w h1 h2 hw
      rcases hw with rfl | rfl
      · exact ⟨h1, h2⟩
      · refine ⟨by rw [applyState_audioCtx]; exact h1, ?_⟩
        have := applyState_gainNode o.schedHook v
        cases hv : v.gainNode with
        | none => rw [hv] at h2; exact absurd h2 (by simp)
        | some g =>
          rw [hv] at this
          cases hh : (applyState o.schedHook v).gainNode with
          | none => rw [hh] at this; exact absurd this (by simp)
          | some g' => rfl
    have := key _ _ hctx hgain (hookBody_vars o _ i e)
    exact ⟨fun _ => this.1, fun _ => this.2⟩

theorem step_keeps (p : Page) (ev : Event) :
    (p.vars.audioCtx.isSome = true → (step p ev).vars.audioCtx.isSome = true) ∧
      (p.vars.gainNode.isSome = true → (step p ev).vars.gainNode.isSome = true) := by
  by_cases hev : ∃ i o, ev = Event.hook i o
  · obtain ⟨i, o, rfl⟩ := hev
    exact connectOutput_keeps o p i
  · obtain ⟨h1, h2, _⟩ := step_other p ev (fun i o h => hev ⟨i, o, h⟩)
    constructor
    · intro h
      unfold ctxId at h1
      cases hq : (step p ev).vars.audioCtx with
      | none =>
        rw [hq] at h1
        cases hp : p.vars.audioCtx with
        | none => rw [hp] at h; exact absurd h (by simp)
        | some c => rw [hp] at h1; exact absurd h1 (by simp)
      | some c => rfl
    · intro h
      unfold gainId at h2
      cases hq : (step p ev).vars.gainNode with
      | none =>
        rw [hq] at h2
        cases hp : p.vars.gainNode with
        | none => rw [hp] at h; exact absurd h (by simp)
        | some c => rw [hp] at h2; exact absurd h2 (by simp)
      | some c => rfl

theorem run_keeps (p : Page) (evs : List Event) :
    (p.vars.audioCtx.isSome = true → (run p evs).vars.audioCtx.isSome = true) ∧
      (p.vars.gainNode.isSome = true → (run p evs).vars.gainNode.isSome = true) := by
  induction evs generalizing p with
  | nil => exact ⟨id, id⟩
  | cons ev evs ih =>
    exact ⟨fun h => (ih (step p ev)).1 ((step_keeps p ev).1 h),
      fun h => (ih (step p ev)).2 ((step_keeps p ev).2 h)⟩

/-- C6: on a page that has made no audio object yet, after every sequence of
events at most one audio context and at most one gain node have been made; an
event makes a context only when none is stored and a gain node only when none
is stored; a stored context or gain node is never cleared or replaced by any
later events; and every source-to-gain connection made goes to the stored gain
node. -/
theorem one_context_one_gain_node (p : Page) (hp : Fresh p) (evs : List Event) :
    (run p evs).contexts ≤ 1 ∧ (run p evs).gainNodes ≤ 1 ∧
      (∀ ev, (step (run p evs) ev).contexts = (run p evs).contexts ∨
        ((run p evs).vars.audioCtx = none ∧
          (step (run p evs) ev).contexts = (run p evs).contexts + 1)) ∧
      (∀ ev, (step (run p evs) ev).gainNodes = (run p evs).gainNodes ∨
        ((run p evs).vars.gainNode = none ∧
          (step (run p evs) ev).gainNodes = (run p evs).gainNodes + 1)) ∧
      (∀ c, (run p evs).vars.audioCtx = some c → ∀ more,
        ∃ c', (run (run p evs) more).vars.audioCtx = some c' ∧ c'.id = c.id) ∧
      (∀ g, (run p evs).vars.gainNode = some g → ∀ more,
        ∃ g', (run (run p evs) more).vars.gainNode = some g' ∧ g'.id = g.id) ∧
      (∀ i n, Edge.sourceToGain i n ∈ (run p evs).edges →
        ∃ g, (run p evs).vars.gainNode = some g ∧ g.id = n) := by
  have hq : OneGraph (run p evs) := run_oneGraph p evs (oneGraph_of_fresh p hp)
  obtain ⟨hcid, hgid⟩ := oneGraph_ids _ hq
  refine ⟨?_, ?_, fun ev => (step_created _ ev).1, fun ev => (step_created _ ev).2, ?_, ?_, ?_⟩
  · rcases hq.1 with ⟨_, h⟩ | ⟨_, h⟩ <;> omega
  · rcases hq.2.1 with ⟨_, h, _⟩ | ⟨_, h, _⟩ <;> omega
  · intro c hc more
    have hs := (run_keeps (run p evs) more).1 (by rw [hc]; rfl)
    obtain ⟨c', hc'⟩ := Option.isSome_iff_exists.mp hs
    refine ⟨c', hc', ?_⟩
    rw [(oneGraph_ids _ (run_oneGraph _ more hq)).1 c' hc', hcid c hc]
  · intro g hg more
    have hs := (run_keeps (run p evs) more).2 (by rw [hg]; rfl)
    obtain ⟨g', hg'⟩ := Option.isSome_iff_exists.mp hs
    refine ⟨g', hg', ?_⟩
    rw [(oneGraph_ids _ (run_oneGraph _ more hq)).2 g' hg', hgid g hg]
  · intro i n hmem
    have hn : n = 0 := by
      rcases hq.2.2 _ hmem with ⟨j, hj⟩ | hj
      · injection hj with _ h2
      · exact absurd hj (by simp)
    rcases hq.2.1 with ⟨_, _, he⟩ | ⟨hgs, _, _⟩
    · rw [he] at hmem; exact absurd hmem (by simp)
    · unfold gainId at hgs
      cases hg : (run p evs).vars.gainNode with
      | none => rw [hg] at hgs; exact absurd hgs (by simp)
      | some g =>
        refine ⟨g, rfl, ?_⟩
        rw [hgid g hg, hn]

/-- C6 on the sample page: both elements are hooked, one context and one gain
node have been made, and both sources are connected to gain node 0. -/
theorem one_context_one_gain_node_witness :
    Fresh samplePage ∧ (run samplePage sampleEvents).contexts = 1 ∧
      (run samplePage sampleEvents).gainNodes = 1 ∧
      (run samplePage sampleEvents).edges =
        [Edge.sourceToGain 0 0, Edge.gainToDestination 0 0,
         Edge.sourceToGain 1 0, Edge.gainToDestination 0 0] ∧
      (run samplePage sampleEvents).contexts ≤ 1 ∧ (run samplePage sampleEvents).gainNodes ≤ 1 :=
  ⟨by decide, by decide, by decide, by decide,
    (one_context_one_gain_node samplePage (by decide) sampleEvents).1,
    (one_context_one_gain_node samplePage (by decide) sampleEvents).2.1⟩

/-! ## Hooking one element -/

theorem getElem?_set_of_some (l : List Element) (i : Nat) (e x : Element) (he : l[i]? = some e) :
    (l.set i x)[i]? = some x := by
  have hi : i < l.length := by
    by_contra hcon
    have := List.getElem?_eq_none_iff.2 (Nat.not_lt.mp hcon)
    rw [this] at he
    exact absurd he (by simp)
  exact List.getElem?_set_self hi

theorem hookFailed_marker (q : Page) (i : Nat) (e : Element) (he : q.elements[i]? = some e) :
    (hookFailed q i e).elements[i]?.map (fun x => x.vcHooked) = some e.vcHooked := by
  rcases hookFailed_eq q i e with h | h <;> rw [h]
  · rw [he]; rfl
  · show ((q.elements.set i _)[i]?).map _ = _
    rw [getElem?_set_of_some q.elements i e _ he]
    rfl

/-- The marker of the element after the `try` block. -/
theorem hookBody_marker (o : HookOutcome) (p : Page) (i : Nat) (e : Element)
    (he : p.elements[i]? = some e) :
    (hookBody o p i e).elements[i]?.map (fun x => x.vcHooked) =
      some (if hookOk o p e then some "true" else e.vcHooked) := by
  cases h : hookOk o p e with
  | true =>
    obtain ⟨g, c, _, _, heq⟩ := hookBody_success o p i e h
    rw [heq]
    show ((p.elements.set i _)[i]?).map _ = _
    rw [getElem?_set_of_some p.elements i e _ he]
    rfl
  | false =>
    obtain ⟨q, heq, _, _, hel, _⟩ := hookBody_failure o p i e h
    rw [heq]
    simpa using hookFailed_marker q i e (hel ▸ he)

/-- A call on an unhooked element, when a context is stored or the constructor
returns one and a gain node is stored or `createGain` returns one, runs the
`try` block on a page that has both and otherwise agrees with the page of the
call. -/
theorem connectOutput_unhooked (o : HookOutcome) (p : Page) (i : Nat) (e : Element)
    (he : p.elements[i]? = some e) (hm : e.vcHooked ≠ some "true")
    (hctx : p.vars.audioCtx.isSome = true ∨ o.ctor.isSome = true)
    (hgain : p.vars.gainNode.isSome = true ∨ o.createGain = true) :
    ∃ p2 : Page, connectOutput o p i = (hookBody o p2 i e, .normal) ∧
      p2.elements = p.elements ∧ p2.edges = p.edges ∧ p2.sources = p.sources ∧
      p2.debugMode = p.debugMode ∧
      p2.vars.audioCtx.isSome = true ∧ p2.vars.gainNode.isSome = true := by
  rcases connectOutput_cases o p i with ⟨_, h | ⟨e', he', hm'⟩⟩ | ⟨_, hn, hc, _⟩ |
    ⟨e', p1, _, _, hc, hgn, hcg, _⟩ | ⟨e', p1, p2, he', _, hc, hg, h⟩
  · rw [he] at h; exact absurd h (by simp)
  · rw [he] at he'
    exact absurd ((Option.some.inj he') ▸ hm') hm
  · rcases hctx with h | h
    · rw [hn] at h; exact absurd h (by simp)
    · rw [hc] at h; exact absurd h (by simp)
  · obtain ⟨_, _, _, h1g, _⟩ := ensureContext_scalars o p p1 hc
    rcases hgain with h | h
    · rw [← h1g, hgn] at h; exact absurd h (by simp)
    · rw [hcg] at h; exact absurd h (by decide)
  · rw [he] at he'
    have ee : e = e' := Option.some.inj he'
    subst ee
    obtain ⟨_, _, _, _, _, h6, h7, h8, h9, h10, h11⟩ := prepared_scalars o p p1 p2 hc hg
    exact ⟨_, h, h7, h6, h9, h8, h10, h11⟩

/-- C7: hooking is idempotent.  A call of `connectOutput` on an element whose
marker is `"true"` returns at once and leaves the whole page as it was: no
source, no connection, no context, no gain node, no change of state or
marker.  Hence, when a first call on an unhooked element has marked it, a
second call on that element changes nothing, and the two calls together have
made exactly one source and one source-to-gain, gain-to-destination
connection for it. -/
theorem hooking_idempotent (o o' : HookOutcome) (p : Page) (i : Nat) (e : Element)
    (he : p.elements[i]? = some e) :
    (e.vcHooked = some "true" → connectOutput o p i = (p, .normal)) ∧
      (e.vcHooked ≠ some "true" →
        (connectOutput o p i).1.elements[i]?.map (fun x => x.vcHooked) = some (some "true") →
        connectOutput o' (connectOutput o p i).1 i = ((connectOutput o p i).1, .normal) ∧
        ∃ g c, (connectOutput o p i).1.vars.gainNode.map (fun x => x.id) = some g ∧
          (connectOutput o p i).1.vars.audioCtx.map (fun x => x.id) = some c ∧
          (connectOutput o' (connectOutput o p i).1 i).1.sources = p.sources ++ [i] ∧
          (connectOutput o' (connectOutput o p i).1 i).1.edges =
            p.edges ++ [Edge.sourceToGain i g, Edge.gainToDestination g c]) := by
  have hooked : ∀ (o : HookOutcome) (q : Page),
      q.elements[i]?.map (fun x => x.vcHooked) = some (some "true") →
      connectOutput o q i = (q, .normal) := by
    intro o q hq
    unfold connectOutput
    cases hqe : q.elements[i]? with
    | none => rfl
    | some x =>
      rw [hqe] at hq
      have hx : x.vcHooked = some "true" := Option.some.inj hq
      simp only [hx, if_true]
  refine ⟨fun hm => hooked o p (by rw [he]; exact congrArg some hm), ?_⟩
  intro hm hafter
  have h2 := hooked o' _ hafter
  refine ⟨h2, ?_⟩
  rw [h2]
  rcases connectOutput_cases o p i with ⟨h, _⟩ | ⟨h, _⟩ | ⟨e', p1, _, _, hc, _, _, h⟩ |
    ⟨e', p1, p2, he', _, hc, hg, heq⟩
  · exfalso
    rw [h, he] at hafter
    exact hm (Option.some.inj hafter)
  · exfalso
    rw [h, he] at hafter
    exact hm (Option.some.inj hafter)
  · exfalso
    obtain ⟨_, _, _, _, _, _, h1e, _⟩ := ensureContext_scalars o p p1 hc
    rw [h] at hafter
    simp only at hafter
    rw [h1e, he] at hafter
    exact hm (Option.some.inj hafter)
  · rw [he] at he'
    have ee : e = e' := Option.some.inj he'
    subst ee
    obtain ⟨_, _, _, _, _, hed, hel, _, hso, hc2, hg2⟩ := prepared_scalars o p p1 p2 hc hg
    rw [heq] at hafter ⊢
    have hmk := hookBody_marker o p2 i e (hel ▸ he)
    simp only at hafter
    rw [hmk] at hafter
    cases hok : hookOk o p2 e with
    | false =>
      rw [hok] at hafter
      exact absurd (Option.some.inj hafter) hm
    | true =>
      obtain ⟨g, c, hg', hc', hb⟩ := hookBody_success o p2 i e hok
      refine ⟨g.id, c.id, ?_, ?_, ?_, ?_⟩
      · have := applyState_gainNode o.schedHook p2.vars
        rw [hb]
        simp only [this, hg', Option.map_some']
      · rw [hb]
        simp only [applyState_audioCtx, hc', Option.map_some']
      · rw [hb]; simp only [hso]
      · rw [hb]; simp only [hed, List.append_assoc, List.singleton_append]

/-- C7 on the sample page: the video is hooked once; a second call leaves the
page as the first call left it, with the one pair of connections. -/
theorem hooking_idempotent_witness :
    connectOutput allGood (connectOutput allGood samplePage 0).1 0 =
        ((connectOutput allGood samplePage 0).1, .normal) ∧
      (connectOutput allGood (connectOutput allGood samplePage 0).1 0).1.edges =
        [Edge.sourceToGain 0 0, Edge.gainToDestination 0 0] :=
  ⟨((hooking_idempotent allGood allGood samplePage 0
      { tagName := "VIDEO", vcHooked := none, wrappedJSObject := true, border := "" } rfl).2
      (by decide) (by decide)).1, by decide⟩

/-- C10, as stated, fails: on the fresh sample page the video is unhooked, and
a constructor that throws makes the call throw to its caller, whatever the
outcomes of source creation and connection would have been; so does a
`createGain` that throws, with the context left stored. -/
theorem connectOutput_throws :
    samplePage.elements[0]?.map (fun x => x.vcHooked) = some none ∧
      connectOutput { allGood with ctor := none } samplePage 0 = (samplePage, .throw) ∧
      (connectOutput { allGood with createGain := false } samplePage 0).2 = .throw ∧
      (connectOutput { allGood with createGain := false } samplePage 0).1.vars.audioCtx
        = some { id := 0, state := "running" } := by
  decide

/-- C10, amended: `connectOutput` fails silently once the page's context and
gain node are available.  On an unhooked element, when a context is stored or
the constructor returns one, and a gain node is stored or `createGain`
returns one, whatever the outcomes of source creation and of the two
connections, the call returns normally and leaves `dB`, `mono` and
`isBlocked` as they were.  A source is obtained when the element exposes the
unwrapped handle and that attempt returns, or else when the direct attempt
returns; the element ends marked hooked exactly when a source was obtained and
both connections were made, and otherwise keeps the marker it had; in terms of
the graph, it ends marked exactly when the call has added the two connections
source to gain and gain to destination, and nothing else, to those made
before. -/
theorem connectOutput_fails_silently (o : HookOutcome) (p : Page) (i : Nat) (e : Element)
    (he : p.elements[i]? = some e) (hm : e.vcHooked ≠ some "true")
    (hctx : p.vars.audioCtx.isSome = true ∨ o.ctor.isSome = true)
    (hgain : p.vars.gainNode.isSome = true ∨ o.createGain = true) :
    (connectOutput o p i).2 = .normal ∧
      (connectOutput o p i).1.vars.dB = p.vars.dB ∧
      (connectOutput o p i).1.vars.mono = p.vars.mono ∧
      (connectOutput o p i).1.vars.isBlocked = p.vars.isBlocked ∧
      ((connectOutput o p i).1.elements[i]?.map (fun x => x.vcHooked) = some (some "true") ↔
        (((e.wrappedJSObject && o.unwrapped) || o.direct) && o.sourceConnect
          && o.gainConnect) = true) ∧
      ((((e.wrappedJSObject && o.unwrapped) || o.direct) && o.sourceConnect
          && o.gainConnect) = false →
        (connectOutput o p i).1.elements[i]?.map (fun x => x.vcHooked) = some e.vcHooked) ∧
      ((connectOutput o p i).1.elements[i]?.map (fun x => x.vcHooked) = some (some "true") ↔
        ∃ g c, (connectOutput o p i).1.edges =
          p.edges ++ [Edge.sourceToGain i g, Edge.gainToDestination g c]) := by
  obtain ⟨h1, h2, h3⟩ := connectOutput_scalars o p i
  obtain ⟨p2, heq, hel, hed, _, _, hc2, hg2⟩ := connectOutput_unhooked o p i e he hm hctx hgain
  have hmk := hookBody_marker o p2 i e (hel ▸ he)
  have hok : hookOk o p2 e =
      (((e.wrappedJSObject && o.unwrapped) || o.direct) && o.sourceConnect && o.gainConnect) := by
    simp only [hookOk, hc2, hg2, Bool.true_and, Bool.and_true]
  refine ⟨by rw [heq], h1, h2, h3, ?_, ?_, ?_⟩
  rotate_left 2
  · rw [heq]
    simp only
    rw [hmk]
    cases hk : hookOk o p2 e with
    | true =>
      obtain ⟨g, c, _, _, hb⟩ := hookBody_success o p2 i e hk
      constructor
      · intro _
        refine ⟨g.id, c.id, ?_⟩
        rw [hb]
        simp only [hed, List.append_assoc, List.singleton_append]
      · intro _
        rfl
    | false =>
      obtain ⟨q, hb, _, _, _, _, _, _, _, hqe⟩ := hookBody_failure o p2 i e hk
      have hfe : (hookFailed q i e).edges = q.edges := by
        rcases hookFailed_eq q i e with h | h <;> rw [h]
      constructor
      · intro h
        exact absurd (Option.some.inj h) hm
      · rintro ⟨g, c, hgc⟩
        exfalso
        rw [hb, hfe] at hgc
        have hlen := congrArg List.length hgc
        rcases hqe with hq | ⟨g', _, hq⟩
        · rw [hq, hed] at hlen
          simp at hlen
        · rw [hq, hed] at hlen
          simp at hlen
  · rw [heq]
    simp only
    rw [hmk, hok]
    constructor
    · intro h
      by_contra hcon
      simp only [Bool.not_eq_true] at hcon
      rw [hcon] at h
      exact hm (Option.some.inj h)
    · intro h
      rw [h]; rfl
  · intro h
    rw [heq]
    simp only
    rw [hmk, hok, h]
    rfl

/-- C10 amended, on the sample page, for the audio element: the direct attempt
returns but the connection to the gain node throws; the call returns normally
and the element stays unmarked. -/
theorem connectOutput_fails_silently_witness :
    (connectOutput { allGood with sourceConnect := false } samplePage 1).2 = .normal ∧
      (connectOutput { allGood with sourceConnect := false } samplePage 1).1.elements[1]?.map
        (fun x => x.vcHooked) = some none :=
  ⟨(connectOutput_fails_silently { allGood with sourceConnect := false } samplePage 1
      { tagName := "AUDIO", vcHooked := none, wrappedJSObject := false, border := "" }
      rfl (by decide) (Or.inr rfl) (Or.inr rfl)).1,
   (connectOutput_fails_silently { allGood with sourceConnect := false } samplePage 1
      { tagName := "AUDIO", vcHooked := none, wrappedJSObject := false, border := "" }
      rfl (by decide) (Or.inr rfl) (Or.inr rfl)).2.2.2.2.2.1 rfl⟩

/-- A constructor that throws, with no context stored, makes the call throw
and leaves the page as it was: the constructor call stands outside the `try`
block. -/
theorem connectOutput_ctor_throws (o : HookOutcome) (p : Page) (i : Nat) (e : Element)
    (he : p.elements[i]? = some e) (hm : e.vcHooked ≠ some "true")
    (hn : p.vars.audioCtx = none) (hc : o.ctor = none) :
    connectOutput o p i = (p, .throw) := by
  unfold connectOutput ensureContext
  simp only [he, hm, if_false, hn, hc]

/-! ## The message handler -/

/-- C8: on an active page the handler implements the command table.
`checkExclusion` answers `{status: "active"}`, `getVolume` answers
`{response: dB}`, `getMono` answers `{response: mono}`, none of them changing
state; `setVolume` stores `msg.dB`, `setMono` stores `msg.mono`, each leaving
the other setting alone, re-applying state and answering `{}`; any other
command sends nothing and changes nothing; the listener returns `true` in
every case.  Hence `getVolume` right after `setVolume` answers the value set,
and `getMono` right after `setMono` likewise. -/
theorem onMessage_active (s : SchedOutcome) (v : Vars) (msg : Message)
    (hb : v.isBlocked = false) :
    (msg.command = "checkExclusion" →
        onMessage s v msg = { vars := v, sent := some (.status "active"), returned := .bool true }) ∧
      (msg.command = "setVolume" →
        onMessage s v msg = { vars := applyState s { v with dB := msg.dB }, sent := some .empty,
                              returned := .bool true } ∧
          (onMessage s v msg).vars.dB = msg.dB ∧ (onMessage s v msg).vars.mono = v.mono) ∧
      (msg.command = "getVolume" →
        onMessage s v msg = { vars := v, sent := some (.response v.dB), returned := .bool true }) ∧
      (msg.command = "setMono" →
        onMessage s v msg = { vars := applyState s { v with mono := msg.mono }, sent := some .empty,
                              returned := .bool true } ∧
          (onMessage s v msg).vars.mono = msg.mono ∧ (onMessage s v msg).vars.dB = v.dB) ∧
      (msg.command = "getMono" →
        onMessage s v msg = { vars := v, sent := some (.response v.mono), returned := .bool true }) ∧
      (msg.command ∉ ["checkExclusion", "setVolume", "getVolume", "setMono", "getMono"] →
        onMessage s v msg = { vars := v, sent := none, returned := .bool true }) ∧
      (onMessage s v msg).returned = .bool true ∧
      (∀ (s' : SchedOutcome) (d m x y : JSVal),
        (onMessage s' (onMessage s v ⟨"setVolume", d, m⟩).vars ⟨"getVolume", x, y⟩).sent
          = some (.response d)) ∧
      (∀ (s' : SchedOutcome) (d m x y : JSVal),
        (onMessage s' (onMessage s v ⟨"setMono", d, m⟩).vars ⟨"getMono", x, y⟩).sent
          = some (.response m)) := by
  have get : ∀ (s' : SchedOutcome) (w : Vars) (x y : JSVal), w.isBlocked = false →
      (onMessage s' w ⟨"getVolume", x, y⟩).sent = some (.response w.dB) ∧
      (onMessage s' w ⟨"getMono", x, y⟩).sent = some (.response w.mono) := by
    intro s' w x y hw
    unfold onMessage
    simp only [hw, Bool.false_eq_true, if_false]
    exact ⟨rfl, rfl⟩
  refine ⟨?_, ?_, ?_, ?_, ?_, ?_, ?_, ?_, ?_⟩
  · intro h
    unfold onMessage
    simp only [hb, h, Bool.false_eq_true, if_false, if_true]
  · intro h
    have e := onMessage_setVolume s v msg hb h
    refine ⟨e, ?_, ?_⟩
    · rw [e]; exact applyState_dB _ _
    · rw [e]; exact applyState_mono _ _
  · intro h
    unfold onMessage
    simp only [hb, h, Bool.false_eq_true, if_false]
    rfl
  · intro h
    have e := onMessage_setMono s v msg hb h
    refine ⟨e, ?_, ?_⟩
    · rw [e]; exact applyState_mono _ _
    · rw [e]; exact applyState_dB _ _
  · intro h
    unfold onMessage
    simp only [hb, h, Bool.false_eq_true, if_false]
    rfl
  · intro h
    simp only [List.mem_cons, List.mem_singleton, List.not_mem_nil, or_false, not_or] at h
    obtain ⟨h1, h2, h3, h4, h5⟩ := h
    unfold onMessage
    simp only [hb, h1, h2, h3, h4, h5, Bool.false_eq_true, if_false]
  · unfold onMessage
    simp only [hb, Bool.false_eq_true, if_false]
    split_ifs <;> rfl
  · intro s' d m x y
    have e := onMessage_setVolume s v ⟨"setVolume", d, m⟩ hb rfl
    have hb' : (onMessage s v ⟨"setVolume", d, m⟩).vars.isBlocked = false :=
      (onMessage_isBlocked s v _).trans hb
    rw [(get s' _ x y hb').1, e]
    exact congrArg (fun z => some (Response.response z)) (applyState_dB _ _)
  · intro s' d m x y
    have e := onMessage_setMono s v ⟨"setMono", d, m⟩ hb rfl
    have hb' : (onMessage s v ⟨"setMono", d, m⟩).vars.isBlocked = false :=
      (onMessage_isBlocked s v _).trans hb
    rw [(get s' _ x y hb').2, e]
    exact congrArg (fun z => some (Response.response z)) (applyState_mono _ _)

/-- C8 on the initial state: `setVolume` with -6 dB, then `getVolume`. -/
theorem onMessage_active_witness :
    (onMessage .ok (onMessage .ok (Page.initial []).vars
        ⟨"setVolume", .num (.fin (-6)), .undefined⟩).vars
        ⟨"getVolume", .undefined, .undefined⟩).sent = some (.response (.num (.fin (-6)))) :=
  (onMessage_active .ok (Page.initial []).vars ⟨"getVolume", .undefined, .undefined⟩ rfl).2.2.2.2.2.2.2.1
    .ok (.num (.fin (-6))) .undefined .undefined .undefined

/-! ## Start-up and the blocked state -/

theorem initLoop_isBlocked (hooks : Nat → HookOutcome) (l : List Nat) (p : Page) :
    (initLoop hooks l p).1.vars.isBlocked = p.vars.isBlocked := by
  induction l generalizing p with
  | nil => rfl
  | cons i rest ih =>
    unfold initLoop
    have h := (connectOutput_scalars (hooks i) p i).2.2
    cases hc : connectOutput (hooks i) p i with
    | mk q c =>
      rw [hc] at h
      cases c with
      | normal => simp only; rw [ih q]; exact h
      | throw => exact h

theorem init_isBlocked (hooks : Nat → HookOutcome) (p : Page) :
    (init hooks p).1.vars.isBlocked = p.vars.isBlocked := by
  unfold init
  split_ifs
  · rfl
  · have h := initLoop_isBlocked hooks (List.range p.elements.length) p
    cases hc : initLoop hooks (List.range p.elements.length) p with
    | mk q c =>
      rw [hc] at h
      cases c with
      | normal => exact h
      | throw => exact h

theorem loadDebugMode_isBlocked (data : StorageData) (p : Page) :
    (loadDebugMode data p).vars.isBlocked = p.vars.isBlocked := by
  unfold loadDebugMode
  split <;> rfl

theorem loadSiteSettings_isBlocked (data : StorageData) (d : String) (p : Page) :
    (loadSiteSettings data d p).vars.isBlocked = p.vars.isBlocked := by
  unfold loadSiteSettings
  split
  · rfl
  · next st _ =>
    simp only
    cases st.volume <;> split_ifs <;> rfl

/-- After `start`, the page is blocked when it was blocked before or when the
storage read succeeded and the decision `blocked` is true. -/
theorem start_isBlocked (lower : String → String) (a l : Bool) (data : StorageData)
    (href : String) (hooks : Nat → HookOutcome) (p : Page) :
    (start lower a l data href hooks p).1.vars.isBlocked =
      (p.vars.isBlocked ||
        (a && !l && blocked data (Cs.extractRootDomain lower (some href)))) := by
  unfold start
  cases a with
  | false => simp
  | true =>
    cases l with
    | true => simp
    | false =>
      simp only [Bool.not_true, Bool.false_eq_true, if_false, Bool.not_false, Bool.true_and]
      cases hbl : blocked data (Cs.extractRootDomain lower (some href)) with
      | true =>
        simp only [if_true, Bool.or_true]
      | false =>
        simp only [Bool.false_eq_true, if_false, Bool.or_false]
        rw [init_isBlocked, loadSiteSettings_isBlocked, loadDebugMode_isBlocked]

theorem blocked_iff (data : StorageData) (domain : String) :
    blocked data domain = true ↔
      (data.whitelistMode = true ∧ ¬ ∃ d ∈ data.whitelist, d.data <:+: domain.data) ∨
      (data.whitelistMode = false ∧ ∃ d ∈ data.fqdns, d.data <:+: domain.data) := by
  unfold blocked
  cases hw : data.whitelistMode with
  | true =>
    simp only [if_true, true_and, Bool.true_eq_false, false_and, or_false]
    rw [← any_includes_iff]
    cases data.whitelist.any (fun d => includes domain d) <;> simp
  | false =>
    simp only [Bool.false_eq_true, if_false, false_and, true_and, false_or]
    rw [← any_includes_iff]
    cases data.fqdns.any (fun d => includes domain d) <;> simp

theorem runOps_isBlocked (lower : String → String) (p : Page) (ops : List Op)
    (hb : p.vars.isBlocked = true) : (runOps lower p ops).vars.isBlocked = true := by
  induction ops generalizing p with
  | nil => exact hb
  | cons op ops ih =>
    apply ih
    cases op with
    | event e => exact (step_isBlocked p e).trans hb
    | start a l data href hooks =>
      show (start lower a l data href hooks p).1.vars.isBlocked = true
      rw [start_isBlocked, hb]
      rfl

/-- C2: once `isBlocked` is true it stays true through every sequence of
operations of the content script (messages, hooks, context events, `start`),
and every message handled afterwards gets no response and changes nothing:
`dB`, `mono`, `audioCtx`, `gainNode` and `isBlocked` are as before, and the
listener returns `undefined`.  This holds whatever the builtin `toLowerCase`
that `start` calls does. -/
theorem blocked_is_terminal (toLowerCase : String → String) (p : Page)
    (hb : p.vars.isBlocked = true) (ops : List Op) (s : SchedOutcome) (msg : Message) :
    (runOps toLowerCase p ops).vars.isBlocked = true ∧
      onMessage s (runOps toLowerCase p ops).vars msg =
        { vars := (runOps toLowerCase p ops).vars, sent := none, returned := .undefined } := by
  have h := runOps_isBlocked toLowerCase p ops hb
  refine ⟨h, ?_⟩
  unfold onMessage
  simp only [h, if_true]

/-- C3: when the storage read succeeds on a page not yet blocked, `start`
marks the page blocked exactly when `whitelistMode` is true and no entry of
`whitelist` is a substring of the current domain, or `whitelistMode` is false
and some entry of `fqdns` is a substring of the current domain; the decision
is this one for every configuration and every domain. -/
theorem start_blocks_iff (toLowerCase : String → String) (data : StorageData) (href : String)
    (hooks : Nat → HookOutcome) (p : Page) (hp : p.vars.isBlocked = false) :
    ((start toLowerCase true false data href hooks p).1.vars.isBlocked = true ↔
        (data.whitelistMode = true ∧
            ¬ ∃ d ∈ data.whitelist,
                d.data <:+: (Cs.extractRootDomain toLowerCase (some href)).data) ∨
          (data.whitelistMode = false ∧
            ∃ d ∈ data.fqdns,
              d.data <:+: (Cs.extractRootDomain toLowerCase (some href)).data)) ∧
      ∀ domain : String, blocked data domain = true ↔
        (data.whitelistMode = true ∧ ¬ ∃ d ∈ data.whitelist, d.data <:+: domain.data) ∨
          (data.whitelistMode = false ∧ ∃ d ∈ data.fqdns, d.data <:+: domain.data) := by
  refine ⟨?_, blocked_iff data⟩
  rw [start_isBlocked, hp, ← blocked_iff]
  simp

/-- C2 on the sample page blocked at start-up: a hook and a later `start` keep
it blocked, and a `setVolume` message then gets no response and changes
nothing. -/
theorem blocked_is_terminal_witness :
    sampleBlocked.vars.isBlocked = true ∧
      (runOps asciiToLowerCase sampleBlocked
          [Op.event (Event.hook 0 allGood),
           Op.start true false sampleWhitelist "https://good.com/" (fun _ => allGood)]).vars.isBlocked
        = true ∧
      onMessage .ok
          (runOps asciiToLowerCase sampleBlocked
            [Op.event (Event.hook 0 allGood),
             Op.start true false sampleWhitelist "https://good.com/" (fun _ => allGood)]).vars
          ⟨"setVolume", .num (.fin 6), .undefined⟩ =
        { vars := (runOps asciiToLowerCase sampleBlocked
            [Op.event (Event.hook 0 allGood),
             Op.start true false sampleWhitelist "https://good.com/" (fun _ => allGood)]).vars
          sent := none, returned := .undefined } :=
  ⟨by decide,
    blocked_is_terminal asciiToLowerCase sampleBlocked (by decide)
      [Op.event (Event.hook 0 allGood),
       Op.start true false sampleWhitelist "https://good.com/" (fun _ => allGood)]
      .ok ⟨"setVolume", .num (.fin 6), .undefined⟩⟩

/-- C3 on the configurations of the specification: with `example.com`
excluded the page `shop.example.com` is blocked at start-up; in whitelist mode
with `good.com` listed, `good.com` is managed and `other.com` is blocked. -/
theorem start_blocks_iff_witness :
    samplePage.vars.isBlocked = false ∧
      (start asciiToLowerCase true false sampleExclusions "https://shop.example.com/watch"
        (fun _ => allGood) samplePage).1.vars.isBlocked = true ∧
      blocked sampleExclusions "shop.example.com" = true ∧
      blocked sampleWhitelist "good.com" = false ∧
      blocked sampleWhitelist "other.com" = true :=
  ⟨rfl,
    (start_blocks_iff asciiToLowerCase sampleExclusions "https://shop.example.com/watch"
      (fun _ => allGood) samplePage rfl).1.2
      (Or.inr ⟨rfl, "example.com", by decide, ⟨"shop.".data, [], by decide⟩⟩),
    by decide, by decide, by decide⟩

/-! ## Gain -/

/-- The real number ten to the power 1/20 lies above 1.12. -/
theorem exactGain_one_gt : (112 : ℝ) / 100 < exactGain 1 := by
  unfold exactGain
  have h20 : ((10 : ℝ) ^ (((1 : ℚ) : ℝ) / 20)) ^ (20 : ℕ) = 10 := by
    rw [← Real.rpow_natCast, ← Real.rpow_mul (by norm_num)]
    norm_num
  have hpos : (0 : ℝ) ≤ (10 : ℝ) ^ (((1 : ℚ) : ℝ) / 20) := Real.rpow_nonneg (by norm_num) _
  by_contra hcon
  have hle : (10 : ℝ) ^ (((1 : ℚ) : ℝ) / 20) ≤ 112 / 100 := not_lt.mp hcon
  have hpow := pow_le_pow_left₀ hpos hle 20
  rw [h20] at hpow
  norm_num at hpow

/-- C9, as stated, fails: the input `true` is not a number, yet `Number(true)`
is 1, which is not `NaN`, so `getGainValue(true)` is the double
`Math.pow(10, 1 / 20)` and not the literal `1.0` of the other branch; the
number this double approximates lies above 1.12, so the two are different
doubles and the result is not the `1.0` the claim promises for a non-numeric
input. -/
theorem getGainValue_true_not_unity :
    (∀ n, JSVal.bool true ≠ JSVal.num n) ∧ Number (.bool true) = .fin 1 ∧
      (Number (.bool true)).isNaN = false ∧
      getGainValue (.bool true) = Gain.ofDecibels (.fin 1) ∧
      getGainValue (.bool true) ≠ Gain.unity ∧
      (112 : ℝ) / 100 < exactGain 1 :=
  ⟨fun _ h => JSVal.noConfusion h, rfl, rfl, rfl, fun h => Gain.noConfusion h,
    exactGain_one_gt⟩

/-- C9, amended: `getGainValue` is a total function of its input alone.  It
converts the input with `Number`; when the conversion is `NaN` it returns
exactly `1.0`, and when the conversion is a number `n` it returns the double
`Math.pow(10, n / 20)`; in particular on every number `d` that is not `NaN`
it returns `Math.pow(10, d / 20)`. -/
theorem getGainValue_spec (v : JSVal) :
    ((Number v).isNaN = true → getGainValue v = Gain.unity) ∧
      ((Number v).isNaN = false → getGainValue v = Gain.ofDecibels (Number v)) ∧
      (∀ d : JSNum, d.isNaN = false → getGainValue (.num d) = Gain.ofDecibels d) := by
  have key : ∀ w : JSVal, (Number w).isNaN = false →
      getGainValue w = Gain.ofDecibels (Number w) := by
    intro w h
    unfold getGainValue
    simp only [h, Bool.false_eq_true, if_false]
  refine ⟨?_, key v, fun d hd => key (.num d) hd⟩
  intro h
  unfold getGainValue
  simp only [h, if_true]

/-- C9 amended, on an absent `dB`, on a string that is no number, on -6 dB and
on a `dB` above the range of the doubles. -/
theorem getGainValue_spec_witness :
    getGainValue .undefined = Gain.unity ∧
      getGainValue (.str "loud" .nan) = Gain.unity ∧
      getGainValue (.num (.fin (-6))) = Gain.ofDecibels (.fin (-6)) ∧
      getGainValue (.str "10000" (.fin 10000)) = Gain.ofDecibels (.fin 10000) :=
  ⟨(getGainValue_spec .undefined).1 rfl, (getGainValue_spec (.str "loud" .nan)).1 rfl,
    (getGainValue_spec (.num (.fin (-6)))).2.1 rfl,
    (getGainValue_spec (.str "10000" (.fin 10000))).2.1 rfl⟩

end VolumeControl
